import Mathlib

/-!
Verification development for the vm-tui download core.

Shallow embedding of the download tracker (`src/lib/downloadTracker.ts`),
the download manager (`src/lib/downloadContext.ts`), the transfer executor
(`src/lib/download.ts`), the throttle (`src/lib/throttle.ts`) and the bulk
downloader (`src/lib/bulkDownloader` part of `contentChecker.ts`).

Filesystem effects are modelled by threading an association list from
filepath to file size; network effects by explicit oracle values; clock
reads (`Date.now`, `new Date().toISOString()`) by explicit parameters.
-/

/-! ## Common types -/

/-- `ContentType` from downloadTracker.ts: 'video' | 'dvw'. -/
inductive ContentType where
  | video
  | dvw
deriving DecidableEq, Repr

/-- A persisted download record (downloadTracker.ts `DownloadRecord`).
`contentType` is optional in old persisted data; readers normalise a
missing value to 'video' (the `?? 'video'` pattern in the source). -/
structure DownloadRecord where
  matchId : Nat
  filepath : String
  filename : String
  downloadedAt : String
  contentType : Option ContentType
deriving DecidableEq, Repr

/-- `d.contentType ?? 'video'`. -/
def recType (d : DownloadRecord) : ContentType :=
  d.contentType.getD ContentType.video

/-- The filesystem as a finite map from path to file size in bytes.
A path absent from the list does not exist (`stat` throws). -/
abbrev FileSys := List (String × Nat)

/-- `fs.promises.stat(p)`: `some size` when the file exists, else `none`. -/
def statFs (fs : FileSys) (p : String) : Option Nat :=
  (fs.find? (fun e => e.1 = p)).map (fun e => e.2)

/-- Write a file of size `sz` at path `p` (create or overwrite). -/
def fsWrite (fs : FileSys) (p : String) (sz : Nat) : FileSys :=
  (p, sz) :: fs.filter (fun e => ¬ e.1 = p)

/-- `fs.promises.unlink(p)` with errors swallowed: remove `p` if present. -/
def fsUnlink (fs : FileSys) (p : String) : FileSys :=
  fs.filter (fun e => ¬ e.1 = p)

/-! ## Download tracker (`downloadTracker.ts`)

The persisted state is the `downloads` list of `DownloadsData`.  Each
operation loads the list, transforms it and (when it writes back) saves
the whole list; we model an operation as a function from the loaded list
(plus the filesystem) to its result and the persisted list after the
call. -/

/-- `markAsDownloaded(matchId, filepath, filename, contentType)`, with the
current time passed explicitly.  Removes any existing record for the same
(matchId, contentType) pair, then appends the new record. -/
def markAsDownloaded (downloads : List DownloadRecord) (matchId : Nat)
    (filepath filename : String) (contentType : ContentType) (now : String) :
    List DownloadRecord :=
  downloads.filter (fun d => ¬ (d.matchId = matchId ∧ recType d = contentType))
    ++ [⟨matchId, filepath, filename, now, some contentType⟩]

/-- `removeDownloadRecord(matchId, contentType?)`. -/
def removeDownloadRecord (downloads : List DownloadRecord) (matchId : Nat)
    (contentType : Option ContentType) : List DownloadRecord :=
  match contentType with
  | some ct =>
      downloads.filter (fun d => ¬ (d.matchId = matchId ∧ recType d = ct))
  | none => downloads.filter (fun d => ¬ d.matchId = matchId)

/-- The predicate of the `find` in `getDownloadRecord`: matchId matches,
and the content type matches when a filter is given. -/
def recordMatches (matchId : Nat) (contentType : Option ContentType)
    (d : DownloadRecord) : Bool :=
  d.matchId = matchId ∧ (∀ ct ∈ contentType, recType d = ct)

/-- `getDownloadRecord(matchId, contentType?)`.  Returns the record found
(with its content type normalised) when its file exists and is non-empty;
returns `none` otherwise.  Only when the `stat` throws (file missing) is
the record removed from the persisted set; a zero-length file falls
through to the final `return null` without a write-back.  The second
component is the persisted list after the call. -/
def getDownloadRecord (fs : FileSys) (downloads : List DownloadRecord)
    (matchId : Nat) (contentType : Option ContentType) :
    Option DownloadRecord × List DownloadRecord :=
  match downloads.find? (recordMatches matchId contentType) with
  | none => (none, downloads)
  | some r =>
      match statFs fs r.filepath with
      | some sz =>
          if sz > 0 then (some { r with contentType := some (recType r) }, downloads)
          else (none, downloads)
      | none => (none, removeDownloadRecord downloads matchId (some (recType r)))

/-- A JS `Map<number, _>` as an insertion-ordered association
list: `set` updates in place when the key exists, else appends. -/
def mapSet {A : Type} (m : List (Nat × A)) (k : Nat) (v : A) :
    List (Nat × A) :=
  if m.any (fun e => e.1 = k) then
    m.map (fun e => if e.1 = k then (k, v) else e)
  else m ++ [(k, v)]

/-- `Map.get`. -/
def mapGet {A : Type} (m : List (Nat × A)) (k : Nat) : Option A :=
  (m.find? (fun e => e.1 = k)).map (fun e => e.2)

/-- `Map.delete`. -/
def mapDelete {A : Type} (m : List (Nat × A)) (k : Nat) : List (Nat × A) :=
  m.filter (fun e => ¬ e.1 = k)

/-- The loop body of `getDownloadedMatches`: accumulates the map of valid
downloads and the list of invalid (matchId, contentType) pairs.  The
source computes a composite `key` (`matchId * 10 + 1` for dvw when no
filter is given) but then calls `validDownloads.set(record.matchId, ...)`,
so the composite key is dead; we keep the dead binding for fidelity. -/
def gdmLoop (fs : FileSys) (contentType : Option ContentType) :
    List DownloadRecord → List (Nat × DownloadRecord) →
    List (Nat × ContentType) →
    List (Nat × DownloadRecord) × List (Nat × ContentType)
  | [], m, inv => (m, inv)
  | r :: rest, m, inv =>
      let rt := recType r
      if _h : ∀ ct ∈ contentType, rt = ct then
        match statFs fs r.filepath with
        | some sz =>
            if sz > 0 then
              let _key : Nat :=
                match contentType with
                | some _ => r.matchId
                | none => r.matchId * 10 + (if rt = ContentType.dvw then 1 else 0)
              gdmLoop fs contentType rest
                (mapSet m r.matchId { r with contentType := some rt }) inv
            else gdmLoop fs contentType rest m (inv ++ [(r.matchId, rt)])
        | none => gdmLoop fs contentType rest m (inv ++ [(r.matchId, rt)])
      else gdmLoop fs contentType rest m inv

/-- `getDownloadedMatches(contentType?)`: returns the map of matchId to
valid record, and the persisted list after the batched clean-up of
invalid records (a single rewrite, only performed when something was
invalid). -/
def getDownloadedMatches (fs : FileSys) (downloads : List DownloadRecord)
    (contentType : Option ContentType) :
    List (Nat × DownloadRecord) × List DownloadRecord :=
  let (m, inv) := gdmLoop fs contentType downloads [] []
  if inv.isEmpty then (m, downloads)
  else
    (m, downloads.filter (fun d =>
      ¬ inv.any (fun e => e.1 = d.matchId ∧ e.2 = recType d)))

/-! ## Ledger helper lemmas -/

/-- The live records for one (matchId, contentType) pair. -/
def pairRecords (downloads : List DownloadRecord) (matchId : Nat)
    (ct : ContentType) : List DownloadRecord :=
  downloads.filter (fun d => d.matchId = matchId ∧ recType d = ct)

/-- The persisted record used for the C3 counterexample and witness. -/
def c3rec : DownloadRecord :=
  ⟨1, "/dl/v.mp4", "v.mp4", "2025-01-01", some ContentType.video⟩

/-! ## C10: the map returned without a filter is keyed by match id -/

/-- A JS map never holds two entries for one key. -/
def keysNodup {A : Type} (m : List (Nat × A)) : Prop :=
  (m.map Prod.fst).Nodup

/-- Video record for match 7 used in the C10 instance. -/
def c10vid : DownloadRecord :=
  ⟨7, "/dl/a.mp4", "a.mp4", "T1", some ContentType.video⟩

/-- DVW record for match 7 used in the C10 instance. -/
def c10dvw : DownloadRecord :=
  ⟨7, "/dl/a.dvw", "a.dvw", "T2", some ContentType.dvw⟩

/-! ## Download manager (`downloadContext.ts`) -/

/-- `DownloadResult` from download.ts: `{success, filepath?, error?}`. -/
structure DownloadResult where
  success : Bool
  filepath : Option String
  error : Option String
deriving DecidableEq, Repr

/-- Progress status: 'pending' | 'downloading' | 'completed' | 'error'. -/
inductive DlStatus where
  | pending
  | downloading
  | completed
  | error
deriving DecidableEq, Repr

/-- `DownloadProgress` from download.ts. -/
structure DownloadProgress where
  matchId : Nat
  filename : String
  bytesDownloaded : Nat
  totalBytes : Nat
  percent : Nat
  status : DlStatus
  error : Option String
deriving DecidableEq, Repr

/-- `ActiveDownload` from downloadContext.ts (the `match`, `videoInfo`
and `dvwInfo` references are display-only metadata and carry no state
the manager reads; they are omitted). -/
structure ActiveDownload where
  matchId : Nat
  contentType : ContentType
  progress : DownloadProgress
  startedAt : Nat
deriving DecidableEq, Repr

/-- `'video' | 'dvw'` as a string. -/
def contentTypeStr : ContentType → String
  | ContentType.video => "video"
  | ContentType.dvw => "dvw"

/-- `getDownloadKey`: the string composite key the source defines.
`isDownloadingContent` computes it and then ignores it, scanning entries
by fields instead, so this key never reaches the map. -/
def getDownloadKey (matchId : Nat) (ct : ContentType) : String :=
  toString matchId ++ "-" ++ contentTypeStr ct

/-- `isDownloadingContent`: iterates over `activeDownloads` looking for
an entry whose matchId and contentType fields match. -/
def isDownloadingContent (active : List (Nat × ActiveDownload))
    (matchId : Nat) (ct : ContentType) : Bool :=
  active.any (fun e => e.2.matchId = matchId ∧ e.2.contentType = ct)

/-- The synchronous prefix of `startDownload` (everything before the
first await): either the immediate 'already downloading' failure result
(no map change, the executor is never invoked) or the map with the new
pending video entry inserted under key `match.id`. -/
def startDownloadBegin (active : List (Nat × ActiveDownload))
    (matchId : Nat) (filename : String) (now : Nat) :
    DownloadResult ⊕ List (Nat × ActiveDownload) :=
  if isDownloadingContent active matchId ContentType.video then
    Sum.inl ⟨false, none, some "Already downloading this video"⟩
  else
    Sum.inr (mapSet active matchId
      ⟨matchId, ContentType.video,
        ⟨matchId, filename, 0, 0, 0, DlStatus.pending, none⟩, now⟩)

/-- The synchronous prefix of `startDVWDownload`: as above but the dvw
entry is inserted under `dvwKey = match.id + 1000000`. -/
def startDVWDownloadBegin (active : List (Nat × ActiveDownload))
    (matchId : Nat) (dvwFilename : String) (now : Nat) :
    DownloadResult ⊕ List (Nat × ActiveDownload) :=
  if isDownloadingContent active matchId ContentType.dvw then
    Sum.inl ⟨false, none, some "Already downloading this DVW file"⟩
  else
    Sum.inr (mapSet active (matchId + 1000000)
      ⟨matchId, ContentType.dvw,
        ⟨matchId, dvwFilename, 0, 0, 0, DlStatus.pending, none⟩, now⟩)

/-- A progress callback firing for a running download stored at `key`:
replaces that entry's progress, leaving its identity fields alone. -/
def updateProgress (active : List (Nat × ActiveDownload)) (key : Nat)
    (p : DownloadProgress) : List (Nat × ActiveDownload) :=
  active.map (fun e =>
    if e.1 = key then (e.1, { e.2 with progress := p }) else e)

/-- Every state of `activeDownloads` the manager can reach: the empty
initial map, the insertion performed by a successful start call, a
progress update, and the `activeDownloads.delete` performed when a
download settles (video deletes `match.id`, dvw deletes
`match.id + 1000000`, in both the success and the catch branch). -/
inductive ManagerReachable : List (Nat × ActiveDownload) → Prop where
  | init : ManagerReachable []
  | startVideo {active matchId filename now active'} :
      ManagerReachable active →
      startDownloadBegin active matchId filename now = Sum.inr active' →
      ManagerReachable active'
  | startDVW {active matchId dvwFilename now active'} :
      ManagerReachable active →
      startDVWDownloadBegin active matchId dvwFilename now = Sum.inr active' →
      ManagerReachable active'
  | progress {active} (key : Nat) (p : DownloadProgress) :
      ManagerReachable active →
      ManagerReachable (updateProgress active key p)
  | finishVideo {active} (matchId : Nat) :
      ManagerReachable active →
      ManagerReachable (mapDelete active matchId)
  | finishDVW {active} (matchId : Nat) :
      ManagerReachable active →
      ManagerReachable (mapDelete active (matchId + 1000000))

/-- The numeric key under which an active download is stored. -/
def activeKey (d : ActiveDownload) : Nat :=
  match d.contentType with
  | ContentType.video => d.matchId
  | ContentType.dvw => d.matchId + 1000000

/-- One pending video entry as stored by `startDownload`. -/
def mgrVid : ActiveDownload :=
  ⟨1, ContentType.video, ⟨1, "f.mp4", 0, 0, 0, DlStatus.pending, none⟩, 0⟩

/-- One pending dvw entry as stored by `startDVWDownload`. -/
def mgrDvw : ActiveDownload :=
  ⟨1, ContentType.dvw, ⟨1, "f.mp4", 0, 0, 0, DlStatus.pending, none⟩, 0⟩

/-- A manager state with both kinds active for match 1. -/
def mgrBoth : List (Nat × ActiveDownload) :=
  [(1, mgrVid), (1000001, mgrDvw)]

/-! ## Notifications (`downloadContext.ts`) -/

/-- `indexOf` + `splice(idx, 1)`: remove the first occurrence. -/
def listRemoveFirst : List String → String → List String
  | [], _ => []
  | x :: xs, msg => if x = msg then xs else x :: listRemoveFirst xs msg

/-- The body of the `setTimeout` callback scheduled by `addNotification`:
remove the message only when it is still present (`idx !== -1`). -/
def clearNotificationList (l : List String) (msg : String) : List String :=
  if l.contains msg then listRemoveFirst l msg else l

/-- The notification slice of the manager's state: the ordered message
list plus the removals scheduled by `setTimeout` (fire time, message).
This slice is independent of `activeDownloads`. -/
structure NotifState where
  notifications : List String
  timers : List (Nat × String)
deriving DecidableEq, Repr

/-- `addNotification(message, timeoutMs)` at time `now`: push the
message, notify subscribers (the second component lists the
notification-list snapshots passed to listeners), and schedule the
auto-removal at `now + timeoutMs`. -/
def addNotification (s : NotifState) (msg : String) (timeoutMs now : Nat) :
    NotifState × List (List String) :=
  (⟨s.notifications ++ [msg], s.timers ++ [(now + timeoutMs, msg)]⟩,
    [s.notifications ++ [msg]])

/-- `clearNotification(message)`: remove the first occurrence and notify
when the message is present, otherwise change nothing and notify
nobody. -/
def clearNotification (s : NotifState) (msg : String) :
    NotifState × List (List String) :=
  if s.notifications.contains msg then
    (⟨listRemoveFirst s.notifications msg, s.timers⟩,
      [listRemoveFirst s.notifications msg])
  else (s, [])

/-- Advance the clock to `now`: every scheduled removal whose fire time
has elapsed runs, in scheduling order. -/
def runDueTimers (s : NotifState) (now : Nat) : NotifState :=
  ⟨(s.timers.filter (fun t => t.1 ≤ now)).foldl
      (fun l t => clearNotificationList l t.2) s.notifications,
    s.timers.filter (fun t => ¬ t.1 ≤ now)⟩

/-! ## Transfer executor (`download.ts`) -/

/-- A team, restricted to the field the filename generator reads. -/
structure TeamInfo where
  abbreviation : String
deriving DecidableEq, Repr

/-- A match event, restricted to the fields the download core reads; the
`matchDate` ISO string is pre-split into its date components (the source
routes it through `new Date`). -/
structure MatchEvent where
  id : Nat
  year : Nat
  month : Nat
  day : Nat
  homeTeam : TeamInfo
  awayTeam : TeamInfo
deriving DecidableEq, Repr

/-- `String(n).padStart(2, '0')`. -/
def pad2 (n : Nat) : String :=
  if n < 10 then "0" ++ toString n else toString n

/-- `generateVideoFilename`: "YYYY-MM-DD AWAY vs HOME.mp4". -/
def generateVideoFilename (ev : MatchEvent) : String :=
  toString ev.year ++ "-" ++ pad2 ev.month ++ "-" ++ pad2 ev.day ++ " "
    ++ ev.awayTeam.abbreviation ++ " vs " ++ ev.homeTeam.abbreviation
    ++ ".mp4"

/-- The characters of the `[<>:"/\\|?*]` class. -/
def isIllegalChar (c : Char) : Bool :=
  c = '<' ∨ c = '>' ∨ c = ':' ∨ c = '"' ∨ c = '/' ∨ c = '\\' ∨ c = '|'
    ∨ c = '?' ∨ c = '*'

/-- `sanitizeFilename`: replace filesystem-illegal characters with '_'
(written over the character list so that it evaluates by reduction). -/
def sanitizeFilename (s : String) : String :=
  ⟨s.data.map (fun c => if isIllegalChar c then '_' else c)⟩

/-- `sanitizeFolderName` (same character class). -/
def sanitizeFolderName (s : String) : String :=
  ⟨s.data.map (fun c => if isIllegalChar c then '_' else c)⟩

/-- `DEFAULT_DOWNLOAD_DIR`, with `os.homedir()` as a parameter. -/
def defaultDownloadDir (home : String) : String :=
  home ++ "/Downloads/VM-TUI"

/-- `getDownloadDir(options)`: the mkdir has no effect on the file map
we track. -/
def getDownloadDir (home : String) (customFolder : Option String) : String :=
  match customFolder with
  | some f => defaultDownloadDir home ++ "/" ++ sanitizeFolderName f
  | none => defaultDownloadDir home

/-- The full target path `path.join(downloadDir, filename)` of a video. -/
def videoFilepath (home : String) (customFolder : Option String)
    (ev : MatchEvent) : String :=
  getDownloadDir home customFolder ++ "/"
    ++ sanitizeFilename (generateVideoFilename ev)

/-- The full target path of a dvw file. -/
def dvwFilepath (home : String) (customFolder : Option String)
    (dvwFilename : String) : String :=
  getDownloadDir home customFolder ++ "/" ++ sanitizeFilename dvwFilename

/-- A fetch response as the streaming downloader consumes it: the chunks
are (arrival time, byte length) pairs delivered in order; `streamErr`
means the `reader.read()` after the last chunk rejects with that
message. -/
structure NetResponse where
  ok : Bool
  status : Nat
  statusText : String
  contentLength : Option Nat
  bodyReadable : Bool
  chunks : List (Nat × Nat)
  streamErr : Option String
deriving DecidableEq, Repr

/-- The outcome of `fetch(url)`: the promise rejects or a response
arrives. -/
inductive FetchOutcome where
  | throws (msg : String)
  | resp (r : NetResponse)
deriving DecidableEq, Repr

/-- The captured mutable state of a `throttle`d function
(`lastCall`, whether `lastArgs` is non-null, and the pending
`setTimeout` fire time). -/
structure ThrottleState where
  lastCall : Nat
  hasPending : Bool
  timerAt : Option Nat
deriving DecidableEq, Repr

/-- `let lastCall = 0; let lastArgs = null; let timeoutId = null`. -/
def throttleInit : ThrottleState := ⟨0, false, none⟩

/-- The trailing `setTimeout` callback at its fire time: `lastArgs`
aliases the single `progress` object the stream loop mutates, so the
value delivered is the progress at fire time (`cur`), not at save
time. -/
def throttleFire (ts : ThrottleState) (fireAt : Nat) (cur : Nat) :
    ThrottleState × List Nat :=
  if ts.hasPending then (⟨fireAt, false, none⟩, [cur])
  else (⟨ts.lastCall, ts.hasPending, none⟩, [])

/-- One call of the throttled function at time `now` with current
progress `cur`: deliver immediately when the window has elapsed (the
immediate branch clears neither `lastArgs` nor the timer), otherwise
save the args and, when no timer is armed, schedule the trailing call at
`lastCall + wait` (that is `now + (wait - timeSinceLastCall)`). -/
def throttleCall (wait : Nat) (ts : ThrottleState) (now cur : Nat) :
    ThrottleState × List Nat :=
  if wait ≤ now - ts.lastCall then (⟨now, ts.hasPending, ts.timerAt⟩, [cur])
  else
    match ts.timerAt with
    | some t => (⟨ts.lastCall, true, some t⟩, [])
    | none => (⟨ts.lastCall, true, some (ts.lastCall + wait)⟩, [])

/-- Let the armed trailing timer fire when its time has come. -/
def fireDue (ts : ThrottleState) (t cur : Nat) : ThrottleState × List Nat :=
  match ts.timerAt with
  | some ft => if ft ≤ t then throttleFire ts ft cur else (ts, [])
  | none => (ts, [])

/-- The `while (true) { reader.read() ... }` loop: a chunk arriving at
time `t` first lets a due trailing timer fire, then adds its bytes to
`progress.bytesDownloaded` and invokes the throttled callback.  Returns
the total bytes read, the final throttle state and the delivered
`bytesDownloaded` values in order. -/
def streamLoop (wait : Nat) : List (Nat × Nat) → Nat → ThrottleState →
    Nat × ThrottleState × List Nat
  | [], bytes, ts => (bytes, ts, [])
  | (t, sz) :: rest, bytes, ts =>
      let fired := fireDue ts t bytes
      let bytes2 := bytes + sz
      let called := throttleCall wait fired.1 t bytes2
      let next := streamLoop wait rest bytes2 called.1
      (next.1, next.2.1, fired.2 ++ called.2 ++ next.2.2)

/-- The observable outcome of one executor run: the result value, the
filesystem afterwards, the number of network requests issued, and the
`bytesDownloaded` values delivered to the progress callback in order. -/
structure ExecOutcome where
  result : DownloadResult
  fs : FileSys
  requests : Nat
  deliveredBytes : List Nat
deriving DecidableEq, Repr

/-- The part of `downloadVideo` after the pre-check: sets the status to
'downloading' (delivering 0), fetches, streams to the target file and
settles.  On any failure the catch branch delivers the error snapshot
(carrying the bytes read so far), best-effort unlinks the partial file
and returns the failure result.  On success a still-armed trailing timer
and the 'completed' snapshot each deliver the final byte count (they
alias the same mutated progress object, so their order cannot change the
values). -/
def downloadVideoNet (net : FetchOutcome) (filepath : String)
    (fs : FileSys) : DownloadResult × FileSys × List Nat :=
  match net with
  | FetchOutcome.throws msg => (⟨false, none, some msg⟩, fsUnlink fs filepath, [0, 0])
  | FetchOutcome.resp r =>
      if r.ok = false then
        (⟨false, none,
            some ("HTTP " ++ toString r.status ++ ": " ++ r.statusText)⟩,
          fsUnlink fs filepath, [0, 0])
      else if r.bodyReadable = false then
        (⟨false, none, some "Response body is not readable"⟩,
          fsUnlink fs filepath, [0, 0])
      else
        let loop := streamLoop 100 r.chunks 0 throttleInit
        let total := loop.1
        let fsDone := fsWrite fs filepath total
        let trailing : List Nat :=
          if loop.2.1.hasPending ∧ loop.2.1.timerAt ≠ none then [total]
          else []
        match r.streamErr with
        | some msg =>
            (⟨false, none, some msg⟩, fsUnlink fsDone filepath,
              0 :: (loop.2.2 ++ [total] ++ trailing))
        | none =>
            (⟨true, some filepath, none⟩, fsDone,
              0 :: (loop.2.2 ++ trailing ++ [total]))

/-- `downloadVideo(videoInfo, match, onProgress, options)`: delivers the
initial 'pending' snapshot (0 bytes), stats the target filepath and
short-circuits to success — performing no network request — when the
file exists non-empty; otherwise performs the fetch-and-stream part. -/
def downloadVideo (home : String) (customFolder : Option String)
    (net : FetchOutcome) (ev : MatchEvent) (fs : FileSys) : ExecOutcome :=
  let filepath := videoFilepath home customFolder ev
  match statFs fs filepath with
  | some sz =>
      if sz > 0 then ⟨⟨true, some filepath, none⟩, fs, 0, [0]⟩
      else
        let r := downloadVideoNet net filepath fs
        ⟨r.1, r.2.1, 1, 0 :: r.2.2⟩
  | none =>
      let r := downloadVideoNet net filepath fs
      ⟨r.1, r.2.1, 1, 0 :: r.2.2⟩

/-- The outcome of `api.downloadDVWContent(matchId)`: the call rejects,
or resolves to null (no content) or to the file text. -/
inductive DvwOutcome where
  | throws (msg : String)
  | content (s : Option String)
deriving DecidableEq, Repr

/-- `downloadDVW(dvwInfo, match, authData, onProgress, options)`: the
single-shot variant.  Pre-check as for video; then one API call; null
content becomes the 'DVW file not available' failure (partial file
unlinked); otherwise the whole payload is written and progress jumps to
100% in one delivery. -/
def downloadDVW (home : String) (customFolder : Option String)
    (net : DvwOutcome) (dvwFilename : String) (fs : FileSys) : ExecOutcome :=
  let filepath := dvwFilepath home customFolder dvwFilename
  let run : DownloadResult × FileSys × List Nat :=
    match net with
    | DvwOutcome.throws msg =>
        (⟨false, none, some msg⟩, fsUnlink fs filepath, [0, 0])
    | DvwOutcome.content none =>
        (⟨false, none, some "DVW file not available or invalid format"⟩,
          fsUnlink fs filepath, [0, 0])
    | DvwOutcome.content (some s) =>
        (⟨true, some filepath, none⟩, fsWrite fs filepath s.utf8ByteSize,
          [0, s.utf8ByteSize])
  match statFs fs filepath with
  | some sz =>
      if sz > 0 then ⟨⟨true, some filepath, none⟩, fs, 0, [0]⟩
      else ⟨run.1, run.2.1, 1, 0 :: run.2.2⟩
  | none => ⟨run.1, run.2.1, 1, 0 :: run.2.2⟩

/-- The match event used in concrete executor instances. -/
def evW : MatchEvent := ⟨1, 2025, 11, 21, ⟨"OU"⟩, ⟨"ARK"⟩⟩

/-- A filesystem holding both concrete non-empty targets. -/
def fsBoth : FileSys :=
  [(videoFilepath "/h" none evW, 5), (dvwFilepath "/h" none "m.dvw", 7)]

/-! ## Bulk downloader (`contentChecker.ts`, bulk part) -/

/-- `BulkContentType`: 'video' | 'dvw' | 'scoresheet'. -/
inductive BulkContentType where
  | video
  | dvw
  | scoresheet
deriving DecidableEq, Repr

/-- `VideoInfo`, restricted to the fields the bulk path reads. -/
structure VideoInfo where
  available : Bool
  url : String
  filename : String
  matchId : Nat
deriving DecidableEq, Repr

/-- `DVWInfo`, restricted to the fields the bulk path reads. -/
structure DVWInfo where
  available : Bool
  matchId : Nat
  filename : String
deriving DecidableEq, Repr

/-- `UnifiedContentAvailability` (the scoresheet slice is never read by
the bulk path, which always skips scoresheets). -/
structure UnifiedContentAvailability where
  matchId : Nat
  video : VideoInfo
  dvw : DVWInfo
deriving DecidableEq, Repr

/-- `BulkDownloadItem` (`match` is a reserved word in Lean, hence
`matchEvent`; `selectedTypes` is a JS Set iterated in insertion
order). -/
structure BulkDownloadItem where
  matchEvent : MatchEvent
  availability : UnifiedContentAvailability
  selectedTypes : List BulkContentType
deriving DecidableEq, Repr

/-- `BulkDownloadResult`; the optional `skipped` flag defaults to
false. -/
structure BulkDownloadResult where
  matchId : Nat
  contentType : BulkContentType
  success : Bool
  filepath : Option String
  error : Option String
  skipped : Bool
  skipReason : Option String
deriving DecidableEq, Repr

/-- `BulkDownloadSummary`. -/
structure BulkDownloadSummary where
  total : Nat
  downloaded : Nat
  skipped : Nat
  failed : Nat
  results : List BulkDownloadResult
deriving DecidableEq, Repr

/-- `BulkDownloadOptions`. -/
structure BulkDownloadOptions where
  customFolder : Option String
  organizeByType : Bool
deriving DecidableEq, Repr

/-- The network as the bulk path sees it: `fetch(videoInfo.url)` and
`api.downloadDVWContent(match.id)`, plus the wall clock used for ledger
timestamps. -/
structure BulkEnv where
  videoNet : String → FetchOutcome
  dvwNet : Nat → DvwOutcome
  now : String

/-- The mutable world the bulk path threads: the filesystem and the
persisted ledger record list. -/
structure BulkState where
  fs : FileSys
  ledger : List DownloadRecord

/-- `CONTENT_SUBFOLDERS`. -/
def contentSubfolder : BulkContentType → String
  | BulkContentType.video => "videos"
  | BulkContentType.dvw => "dvw"
  | BulkContentType.scoresheet => "scoresheets"

/-- The directory `createDownloadDirectories` assigns to a content type
(the mkdir calls have no effect on the file map we track). -/
def bulkTargetDir (home : String) (options : BulkDownloadOptions)
    (t : BulkContentType) : String :=
  let base :=
    match options.customFolder with
    | some f => defaultDownloadDir home ++ "/" ++ sanitizeFolderName f
    | none => defaultDownloadDir home
  if options.organizeByType then base ++ "/" ++ contentSubfolder t
  else base

/-- The fetch-and-stream part of the bulk `downloadVideoContent`: on any
failure the partial file is best-effort unlinked and a failure result
returned; on success the file holds the streamed bytes and
`markAsDownloaded` records the completion in the ledger. -/
def downloadVideoContentNet (env : BulkEnv) (st : BulkState)
    (ev : MatchEvent) (vinfo : VideoInfo) (filepath filename : String) :
    BulkDownloadResult × BulkState × Nat :=
  match env.videoNet vinfo.url with
  | FetchOutcome.throws msg =>
      (⟨ev.id, BulkContentType.video, false, none, some msg, false, none⟩,
        ⟨fsUnlink st.fs filepath, st.ledger⟩, 1)
  | FetchOutcome.resp r =>
      if r.ok = false then
        (⟨ev.id, BulkContentType.video, false, none,
            some ("HTTP " ++ toString r.status ++ ": " ++ r.statusText),
            false, none⟩,
          ⟨fsUnlink st.fs filepath, st.ledger⟩, 1)
      else if r.bodyReadable = false then
        (⟨ev.id, BulkContentType.video, false, none,
            some "Response body is not readable", false, none⟩,
          ⟨fsUnlink st.fs filepath, st.ledger⟩, 1)
      else
        let total := (r.chunks.map Prod.snd).sum
        match r.streamErr with
        | some msg =>
            (⟨ev.id, BulkContentType.video, false, none, some msg,
                false, none⟩,
              ⟨fsUnlink (fsWrite st.fs filepath total) filepath,
                st.ledger⟩, 1)
        | none =>
            (⟨ev.id, BulkContentType.video, true, some filepath, none,
                false, none⟩,
              ⟨fsWrite st.fs filepath total,
                markAsDownloaded st.ledger ev.id filepath filename
                  ContentType.video env.now⟩, 1)

/-- `downloadVideoContent` (bulk path): stats the target filepath and
skips with 'Already downloaded' when it exists non-empty — the ledger
and the download manager are not consulted here — else downloads. -/
def downloadVideoContent (env : BulkEnv) (st : BulkState)
    (ev : MatchEvent) (vinfo : VideoInfo) (targetDir : String) :
    BulkDownloadResult × BulkState × Nat :=
  let filename := sanitizeFilename (generateVideoFilename ev)
  let filepath := targetDir ++ "/" ++ filename
  match statFs st.fs filepath with
  | some sz =>
      if sz > 0 then
        (⟨ev.id, BulkContentType.video, true, some filepath, none, true,
            some "Already downloaded"⟩, st, 0)
      else downloadVideoContentNet env st ev vinfo filepath filename
  | none => downloadVideoContentNet env st ev vinfo filepath filename

/-- The fetch part of the bulk `downloadDVWContent`. -/
def downloadDVWContentNet (env : BulkEnv) (st : BulkState)
    (ev : MatchEvent) (filepath filename : String) :
    BulkDownloadResult × BulkState × Nat :=
  match env.dvwNet ev.id with
  | DvwOutcome.throws msg =>
      (⟨ev.id, BulkContentType.dvw, false, none, some msg, false, none⟩,
        ⟨fsUnlink st.fs filepath, st.ledger⟩, 1)
  | DvwOutcome.content none =>
      (⟨ev.id, BulkContentType.dvw, false, none,
          some "DVW file not available or invalid format", false, none⟩,
        ⟨fsUnlink st.fs filepath, st.ledger⟩, 1)
  | DvwOutcome.content (some s) =>
      (⟨ev.id, BulkContentType.dvw, true, some filepath, none, false,
          none⟩,
        ⟨fsWrite st.fs filepath s.utf8ByteSize,
          markAsDownloaded st.ledger ev.id filepath filename
            ContentType.dvw env.now⟩, 1)

/-- `downloadDVWContent` (bulk path): same pre-check as the video
variant. -/
def downloadDVWContent (env : BulkEnv) (st : BulkState) (ev : MatchEvent)
    (dinfo : DVWInfo) (targetDir : String) :
    BulkDownloadResult × BulkState × Nat :=
  let filename := sanitizeFilename dinfo.filename
  let filepath := targetDir ++ "/" ++ filename
  match statFs st.fs filepath with
  | some sz =>
      if sz > 0 then
        (⟨ev.id, BulkContentType.dvw, true, some filepath, none, true,
            some "Already downloaded"⟩, st, 0)
      else downloadDVWContentNet env st ev filepath filename
  | none => downloadDVWContentNet env st ev filepath filename

/-- `downloadSingleContent`: availability gate, then the per-kind
download; scoresheets always skip.  (The trailing 'Unknown content type'
branch of the source is unreachable over the closed enum.) -/
def downloadSingleContent (env : BulkEnv) (st : BulkState)
    (ev : MatchEvent) (availability : UnifiedContentAvailability)
    (contentType : BulkContentType) (targetDir : String) :
    BulkDownloadResult × BulkState × Nat :=
  match contentType with
  | BulkContentType.video =>
      if availability.video.available = false then
        (⟨ev.id, BulkContentType.video, false, none, none, true,
            some "Video not available"⟩, st, 0)
      else downloadVideoContent env st ev availability.video targetDir
  | BulkContentType.dvw =>
      if availability.dvw.available = false then
        (⟨ev.id, BulkContentType.dvw, false, none, none, true,
            some "DVW not available"⟩, st, 0)
      else downloadDVWContent env st ev availability.dvw targetDir
  | BulkContentType.scoresheet =>
      (⟨ev.id, BulkContentType.scoresheet, false, none, none, true,
          some "Scoresheets coming soon"⟩, st, 0)

/-- The inner `for (const contentType of item.selectedTypes)` loop. -/
def bulkItemLoop (env : BulkEnv) (home : String)
    (options : BulkDownloadOptions) (ev : MatchEvent)
    (availability : UnifiedContentAvailability) :
    List BulkContentType → BulkState →
    List BulkDownloadResult × BulkState
  | [], st => ([], st)
  | t :: rest, st =>
      let r := downloadSingleContent env st ev availability t
        (bulkTargetDir home options t)
      let next := bulkItemLoop env home options ev availability rest r.2.1
      (r.1 :: next.1, next.2)

/-- The outer `for (const item of items)` loop. -/
def bulkLoop (env : BulkEnv) (home : String)
    (options : BulkDownloadOptions) :
    List BulkDownloadItem → BulkState →
    List BulkDownloadResult × BulkState
  | [], st => ([], st)
  | item :: rest, st =>
      let r := bulkItemLoop env home options item.matchEvent
        item.availability item.selectedTypes st
      let next := bulkLoop env home options rest r.2
      (r.1 ++ next.1, next.2)

/-- `countTotalDownloads` (also the `totalDownloads` count computed at
the top of `bulkDownload`). -/
def countTotalDownloads (items : List BulkDownloadItem) : Nat :=
  (items.map (fun i => i.selectedTypes.length)).sum

/-- `bulkDownload`: drives every (item, kind) pair sequentially and
classifies the collected results into the summary counts (the batch
progress pushed to the download manager and the final notification are
the manager slice modelled separately). -/
def bulkDownload (env : BulkEnv) (home : String)
    (options : BulkDownloadOptions) (items : List BulkDownloadItem)
    (st : BulkState) : BulkDownloadSummary × BulkState :=
  let run := bulkLoop env home options items st
  let results := run.1
  (⟨countTotalDownloads items,
      (results.filter (fun r => r.success ∧ ¬ r.skipped)).length,
      (results.filter (fun r => r.skipped)).length,
      (results.filter (fun r => ¬ r.success ∧ ¬ r.skipped)).length,
      results⟩, run.2)

/-- A one-item batch (video + dvw selected) used in concrete bulk
instances. -/
def itemW : BulkDownloadItem :=
  ⟨evW, ⟨1, ⟨true, "u", "f", 1⟩, ⟨true, 1, "m.dvw"⟩⟩,
    [BulkContentType.video, BulkContentType.dvw]⟩

/-- A network where every request fails. -/
def envW : BulkEnv :=
  ⟨fun _ => FetchOutcome.throws "down", fun _ => DvwOutcome.throws "down",
    "T"⟩

/-- The valid ledger record used in the C7 counterexample. -/
def c7rec : DownloadRecord := ⟨1, "q", "v.mp4", "T0", some ContentType.video⟩

/-- A filesystem holding both bulk targets non-empty under "/d". -/
def fsW7 : FileSys :=
  [("/d/" ++ sanitizeFilename (generateVideoFilename evW), 5),
    ("/d/" ++ sanitizeFilename "m.dvw", 7)]

/-! ## Theorems -/

theorem recType_mk (m : Nat) (fp fn t : String) (k : ContentType) :
    recType ⟨m, fp, fn, t, some k⟩ = k := rfl

theorem pairRecords_markAsDownloaded_same (l : List DownloadRecord) (m : Nat)
    (fp fn t : String) (k : ContentType) :
    pairRecords (markAsDownloaded l m fp fn k t) m k
      = [⟨m, fp, fn, t, some k⟩] := by
  simp only [pairRecords, markAsDownloaded, List.filter_append]
  rw [List.filter_filter]
  simp [recType]

theorem filter_pair_of_filter_not_pair (l : List DownloadRecord) (m : Nat)
    (k : ContentType) (m' : Nat) (k' : ContentType)
    (hne : ¬ (m' = m ∧ k' = k)) :
    (l.filter (fun d => ¬ (d.matchId = m ∧ recType d = k))).filter
        (fun d => d.matchId = m' ∧ recType d = k')
      = l.filter (fun d => d.matchId = m' ∧ recType d = k') := by
  rw [List.filter_filter]
  apply List.filter_congr
  intro d _
  by_cases hq : d.matchId = m' ∧ recType d = k'
  · have hp : ¬ (d.matchId = m ∧ recType d = k) := fun hp =>
      hne ⟨hq.1.symm.trans hp.1, hq.2.symm.trans hp.2⟩
    simp [hq, hp]
    exact not_and_or.mp hne
  · simp [hq]

theorem pairRecords_markAsDownloaded_other (l : List DownloadRecord) (m : Nat)
    (fp fn t : String) (k : ContentType) (m' : Nat) (k' : ContentType)
    (hne : ¬ (m' = m ∧ k' = k)) :
    pairRecords (markAsDownloaded l m fp fn k t) m' k'
      = pairRecords l m' k' := by
  have hnew : ¬ ((⟨m, fp, fn, t, some k⟩ : DownloadRecord).matchId = m'
      ∧ recType ⟨m, fp, fn, t, some k⟩ = k') := by
    simp only [recType_mk]
    exact fun h => hne ⟨h.1.symm, h.2.symm⟩
  simp only [pairRecords, markAsDownloaded, List.filter_append,
    filter_pair_of_filter_not_pair l m k m' k' hne]
  simp [hnew]

/-! ## C2: ledger idempotence -/

/-- C2: recording a completion twice for the same (match id, kind) via
`markAsDownloaded` leaves exactly one persisted record for that pair, and
that record carries the filepath, filename and timestamp of the most
recent call; records for every other (match id, kind) pair are
unchanged. -/
theorem ledger_record_twice_idempotent (l : List DownloadRecord) (m : Nat)
    (fp1 fn1 t1 fp2 fn2 t2 : String) (k : ContentType)
    (m' : Nat) (k' : ContentType) (hne : ¬ (m' = m ∧ k' = k)) :
    pairRecords
        (markAsDownloaded (markAsDownloaded l m fp1 fn1 k t1) m fp2 fn2 k t2)
        m k
      = [⟨m, fp2, fn2, t2, some k⟩]
    ∧ pairRecords
        (markAsDownloaded (markAsDownloaded l m fp1 fn1 k t1) m fp2 fn2 k t2)
        m' k'
      = pairRecords l m' k' :=
  ⟨pairRecords_markAsDownloaded_same _ m fp2 fn2 t2 k,
   (pairRecords_markAsDownloaded_other _ m fp2 fn2 t2 k m' k' hne).trans
     (pairRecords_markAsDownloaded_other l m fp1 fn1 t1 k m' k' hne)⟩

theorem ledger_record_twice_idempotent_witness :
    pairRecords
        (markAsDownloaded
          (markAsDownloaded [] 5 "/a/old.mp4" "old.mp4" ContentType.video "T1")
          5 "/a/new.mp4" "new.mp4" ContentType.video "T2")
        5 ContentType.video
      = [⟨5, "/a/new.mp4", "new.mp4", "T2", some ContentType.video⟩]
    ∧ pairRecords
        (markAsDownloaded
          (markAsDownloaded [] 5 "/a/old.mp4" "old.mp4" ContentType.video "T1")
          5 "/a/new.mp4" "new.mp4" ContentType.video "T2")
        6 ContentType.dvw
      = pairRecords [] 6 ContentType.dvw :=
  ledger_record_twice_idempotent [] 5 "/a/old.mp4" "old.mp4" "T1"
    "/a/new.mp4" "new.mp4" "T2" ContentType.video 6 ContentType.dvw
    (by decide)

/-! ## C3: ledger self-healing -/

theorem mem_mapSet {A : Type} {m : List (Nat × A)} {k : Nat}
    {v : A} {e : Nat × A}
    (h : e ∈ mapSet m k v) : e = (k, v) ∨ e ∈ m := by
  unfold mapSet at h
  by_cases hc : m.any (fun e => e.1 = k) = true
  · rw [if_pos hc] at h
    rcases List.mem_map.mp h with ⟨a, ha, hfa⟩
    by_cases hak : a.1 = k
    · left
      rw [← hfa, if_pos hak]
    · right
      rw [← hfa, if_neg hak]
      exact ha
  · rw [if_neg hc] at h
    rcases List.mem_append.mp h with h | h
    · exact Or.inr h
    · exact Or.inl (by simpa using h)

theorem gdmLoop_value_valid (fs : FileSys) (ct : Option ContentType) :
    ∀ (l : List DownloadRecord) (acc : List (Nat × DownloadRecord))
      (inv : List (Nat × ContentType)) (e : Nat × DownloadRecord),
      e ∈ (gdmLoop fs ct l acc inv).1 →
      e ∈ acc ∨ ∃ sz, statFs fs e.2.filepath = some sz ∧ 0 < sz := by
  intro l
  induction l with
  | nil =>
    intro acc inv e he
    exact Or.inl (by simpa [gdmLoop] using he)
  | cons r rest ih =>
    intro acc inv e he
    simp only [gdmLoop] at he
    split at he
    · split at he
      · rename_i sz hst
        split at he
        · rename_i hsz
          rcases ih _ _ _ he with hacc | hval
          · rcases mem_mapSet hacc with heq | hmem
            · subst heq
              exact Or.inr ⟨sz, hst, hsz⟩
            · exact Or.inl hmem
          · exact Or.inr hval
        · exact ih _ _ _ he
      · exact ih _ _ _ he
    · exact ih _ _ _ he

theorem getDownloadedMatches_fst (fs : FileSys) (l : List DownloadRecord)
    (ct : Option ContentType) :
    (getDownloadedMatches fs l ct).1 = (gdmLoop fs ct l [] []).1 := by
  unfold getDownloadedMatches
  cases h : gdmLoop fs ct l [] [] with
  | mk m inv => by_cases hinv : inv.isEmpty = true <;> simp [hinv]

/-- C3 (amended): let `r` be the record `getDownloadRecord` finds for a
query.  If `r`'s file is missing on disk, the get returns null and the
record is removed from the persisted set (write-back).  If `r`'s file
exists with size zero, the get returns null but the persisted set is
left unchanged — removal happens only when `stat` throws, not for a
zero-length file (this corrects the original claim).  In either invalid
case a subsequent `getDownloadedMatches` (over any persisted set, with
any filter) never returns that record, because it re-validates file size
itself.  When the file is non-empty, the record is returned (content
type normalised) and the persisted set is unchanged. -/
theorem ledger_get_self_heals (fs : FileSys) (l : List DownloadRecord)
    (m : Nat) (ct : Option ContentType) (r : DownloadRecord)
    (hfind : l.find? (recordMatches m ct) = some r) :
    (statFs fs r.filepath = none →
      getDownloadRecord fs l m ct
          = (none, removeDownloadRecord l m (some (recType r)))
        ∧ r ∉ (getDownloadRecord fs l m ct).2)
    ∧ (statFs fs r.filepath = some 0 →
        getDownloadRecord fs l m ct = (none, l))
    ∧ ((statFs fs r.filepath = none ∨ statFs fs r.filepath = some 0) →
        ∀ (l2 : List DownloadRecord) (ct2 : Option ContentType) (k : Nat),
          (k, { r with contentType := some (recType r) })
            ∉ (getDownloadedMatches fs l2 ct2).1)
    ∧ (∀ sz, statFs fs r.filepath = some sz → 0 < sz →
        getDownloadRecord fs l m ct
          = (some { r with contentType := some (recType r) }, l)) := by
  have hmatch : recordMatches m ct r = true := List.find?_some hfind
  have hm : r.matchId = m := by
    have h2 : r.matchId = m ∧ ∀ c ∈ ct, recType r = c := by
      simpa [recordMatches] using hmatch
    exact h2.1
  clear hmatch
  refine ⟨?_, ?_, ?_, ?_⟩
  · intro hmiss
    constructor
    · simp [getDownloadRecord, hfind, hmiss]
    · simp [getDownloadRecord, hfind, hmiss, removeDownloadRecord,
        List.mem_filter, hm]
  · intro hzero
    simp [getDownloadRecord, hfind, hzero]
  · intro hinv l2 ct2 k hmem
    rw [getDownloadedMatches_fst] at hmem
    rcases gdmLoop_value_valid fs ct2 l2 [] []
        (k, { r with contentType := some (recType r) }) hmem with habs | hval
    · simp at habs
    · rcases hval with ⟨sz, hst, hpos⟩
      rcases hinv with hmiss | hzero
      · rw [show ({ r with contentType := some (recType r) } :
            DownloadRecord).filepath = r.filepath from rfl, hmiss] at hst
        exact absurd hst (by simp)
      · rw [show ({ r with contentType := some (recType r) } :
            DownloadRecord).filepath = r.filepath from rfl, hzero] at hst
        cases hst
        exact absurd hpos (by simp)
  · intro sz hst hpos
    simp [getDownloadRecord, hfind, hst, hpos]

/-- C3 counterexample: with a persisted record whose file exists with
size zero, `getDownloadRecord` returns null but does NOT remove the
record from the persisted set — the original claim's removal clause
fails for the zero-length case (the source deletes only in the `catch`
branch, i.e. when `stat` throws because the file is missing). -/
theorem ledger_get_zero_length_keeps_record :
    (getDownloadRecord [("/dl/v.mp4", 0)] [c3rec] 1 none).1 = none
    ∧ (getDownloadRecord [("/dl/v.mp4", 0)] [c3rec] 1 none).2 = [c3rec] := by
  constructor <;> rfl

theorem ledger_get_self_heals_witness :
    getDownloadRecord [] [c3rec] 1 none = (none, []) := by
  have h := ledger_get_self_heals [] [c3rec] 1 none c3rec rfl
  exact ((h.1 rfl).1).trans rfl

theorem keysNodup_mapSet {A : Type} {m : List (Nat × A)} {k : Nat}
    {v : A} (h : keysNodup m) : keysNodup (mapSet m k v) := by
  unfold mapSet keysNodup
  by_cases hc : m.any (fun e => e.1 = k) = true
  · rw [if_pos hc]
    have hkeys : (m.map (fun e => if e.1 = k then (k, v) else e)).map Prod.fst
        = m.map Prod.fst := by
      rw [List.map_map]
      apply List.map_congr_left
      intro e _
      by_cases he : e.1 = k
      · simp [he]
      · simp [he]
    rw [hkeys]
    exact h
  · rw [if_neg hc]
    have hk : k ∉ m.map Prod.fst := by
      intro hmem
      apply hc
      rcases List.mem_map.mp hmem with ⟨e, he, hek⟩
      exact List.any_eq_true.mpr ⟨e, he, by simp [hek]⟩
    rw [List.map_append]
    simp only [List.map_cons, List.map_nil]
    rw [List.nodup_append]
    exact ⟨h, List.nodup_singleton k,
      fun x hx hxk => hk (by simpa [List.mem_singleton.mp hxk] using hx)⟩

theorem filter_key_length_le_one {A : Type} {m : List (Nat × A)}
    (h : keysNodup m) (k : Nat) :
    (m.filter (fun e => e.1 = k)).length ≤ 1 := by
  induction m with
  | nil => simp
  | cons e rest ih =>
    rw [keysNodup, List.map_cons, List.nodup_cons] at h
    by_cases he : e.1 = k
    · have hempty : rest.filter (fun x => x.1 = k) = [] := by
        rw [List.filter_eq_nil_iff]
        intro a ha
        simp only [decide_eq_true_eq]
        intro hak
        exact h.1 (by
          rw [he, ← hak]
          exact List.mem_map.mpr ⟨a, ha, rfl⟩)
      simp [List.filter_cons, he, hempty]
    · simp only [List.filter_cons, he]
      simpa using ih h.2

theorem gdmLoop_keysNodup (fs : FileSys) (ct : Option ContentType) :
    ∀ (l : List DownloadRecord) (acc : List (Nat × DownloadRecord))
      (inv : List (Nat × ContentType)), keysNodup acc →
      keysNodup (gdmLoop fs ct l acc inv).1 := by
  intro l
  induction l with
  | nil =>
    intro acc inv h
    simpa [gdmLoop] using h
  | cons r rest ih =>
    intro acc inv h
    simp only [gdmLoop]
    split
    · split
      · split
        · exact ih _ _ (keysNodup_mapSet h)
        · exact ih _ _ h
      · exact ih _ _ h
    · exact ih _ _ h

theorem gdmLoop_key_eq_matchId (fs : FileSys) (ct : Option ContentType) :
    ∀ (l : List DownloadRecord) (acc : List (Nat × DownloadRecord))
      (inv : List (Nat × ContentType)),
      (∀ e ∈ acc, e.1 = e.2.matchId) →
      ∀ e ∈ (gdmLoop fs ct l acc inv).1, e.1 = e.2.matchId := by
  intro l
  induction l with
  | nil =>
    intro acc inv h e he
    exact h e (by simpa [gdmLoop] using he)
  | cons r rest ih =>
    intro acc inv h e he
    simp only [gdmLoop] at he
    split at he
    · split at he
      · split at he
        · refine ih _ _ ?_ e he
          intro e2 he2
          rcases mem_mapSet he2 with heq | hmem
          · rw [heq]
          · exact h e2 hmem
        · exact ih _ _ h e he
      · exact ih _ _ h e he
    · exact ih _ _ h e he

/-- C10: `getDownloadedMatches` called without a content-type filter keys
its result map by the record's match id (never by the computed composite
key), so it holds at most one entry per match id; with a match that has
both a valid video and a valid dvw record, only the later-iterated (dvw)
record appears in the returned map while both records remain persisted. -/
theorem getDownloadedMatches_one_entry_per_match (fs : FileSys)
    (l : List DownloadRecord) :
    (∀ e ∈ (getDownloadedMatches fs l none).1, e.1 = e.2.matchId)
    ∧ (∀ k, ((getDownloadedMatches fs l none).1.filter
        (fun e => e.1 = k)).length ≤ 1)
    ∧ getDownloadedMatches [("/dl/a.mp4", 10), ("/dl/a.dvw", 20)]
        [c10vid, c10dvw] none
      = ([(7, c10dvw)], [c10vid, c10dvw]) := by
  refine ⟨?_, ?_, ?_⟩
  · intro e he
    rw [getDownloadedMatches_fst] at he
    exact gdmLoop_key_eq_matchId fs none l [] [] (by simp) e he
  · intro k
    rw [getDownloadedMatches_fst]
    exact filter_key_length_le_one
      (gdmLoop_keysNodup fs none l [] [] (by simp [keysNodup])) k
  · rfl

theorem getDownloadedMatches_one_entry_per_match_witness :
    (7, c10dvw).1 = (7, c10dvw).2.matchId
    ∧ ((getDownloadedMatches [("/dl/a.mp4", 10), ("/dl/a.dvw", 20)]
        [c10vid, c10dvw] none).1.filter (fun e => e.1 = 7)).length ≤ 1 := by
  have h := getDownloadedMatches_one_entry_per_match
    [("/dl/a.mp4", 10), ("/dl/a.dvw", 20)] [c10vid, c10dvw]
  refine ⟨h.1 (7, c10dvw) ?_, h.2.1 7⟩
  rw [h.2.2]
  exact List.mem_singleton.mpr rfl

theorem keysNodup_mapDelete {A : Type} {m : List (Nat × A)}
    (hn : keysNodup m) (k : Nat) : keysNodup (mapDelete m k) := by
  unfold keysNodup mapDelete
  exact List.Nodup.sublist ((List.filter_sublist m).map Prod.fst) hn

theorem updateProgress_map_fst (active : List (Nat × ActiveDownload))
    (key : Nat) (p : DownloadProgress) :
    (updateProgress active key p).map Prod.fst = active.map Prod.fst := by
  rw [updateProgress, List.map_map]
  apply List.map_congr_left
  intro e _
  by_cases he : e.1 = key
  · simp [he]
  · simp [he]

theorem eq_of_mem_of_keysNodup {A : Type} {m : List (Nat × A)}
    (hn : keysNodup m) {e1 e2 : Nat × A} (h1 : e1 ∈ m) (h2 : e2 ∈ m)
    (hk : e1.1 = e2.1) : e1 = e2 := by
  induction m with
  | nil => cases h1
  | cons e rest ih =>
    rw [keysNodup, List.map_cons, List.nodup_cons] at hn
    rcases List.mem_cons.mp h1 with rfl | h1m
    · rcases List.mem_cons.mp h2 with rfl | h2m
      · rfl
      · exact absurd (List.mem_map.mpr ⟨e2, h2m, hk.symm⟩) hn.1
    · rcases List.mem_cons.mp h2 with rfl | h2m
      · exact absurd (List.mem_map.mpr ⟨e1, h1m, hk⟩) hn.1
      · exact ih hn.2 h1m h2m

theorem managerReachable_inv {active : List (Nat × ActiveDownload)}
    (h : ManagerReachable active) :
    keysNodup active ∧ ∀ e ∈ active, e.1 = activeKey e.2 := by
  induction h with
  | init => exact ⟨List.nodup_nil, by simp⟩
  | startVideo _ heq ih =>
    rw [startDownloadBegin] at heq
    split at heq
    · cases heq
    · cases heq
      refine ⟨keysNodup_mapSet ih.1, fun e he => ?_⟩
      rcases mem_mapSet he with rfl | hm
      · rfl
      · exact ih.2 e hm
  | startDVW _ heq ih =>
    rw [startDVWDownloadBegin] at heq
    split at heq
    · cases heq
    · cases heq
      refine ⟨keysNodup_mapSet ih.1, fun e he => ?_⟩
      rcases mem_mapSet he with rfl | hm
      · rfl
      · exact ih.2 e hm
  | progress key p _ ih =>
    constructor
    · unfold keysNodup
      rw [updateProgress_map_fst]
      exact ih.1
    · intro e he
      rcases List.mem_map.mp he with ⟨a, ha, hfa⟩
      by_cases hak : a.1 = key
      · rw [← hfa, if_pos hak]
        exact ih.2 a ha
      · rw [← hfa, if_neg hak]
        exact ih.2 a ha
  | finishVideo matchId _ ih =>
    exact ⟨keysNodup_mapDelete ih.1 _, fun e he =>
      ih.2 e (List.mem_of_mem_filter he)⟩
  | finishDVW matchId _ ih =>
    exact ⟨keysNodup_mapDelete ih.1 _, fun e he =>
      ih.2 e (List.mem_of_mem_filter he)⟩

/-- C1: when a download for a (match id, kind) pair is already active —
i.e. `activeDownloads` holds an entry for it — a second start call for
the same pair returns the immediate 'already downloading' failure result
(the `Sum.inl` branch: no insertion, the executor is never invoked); and
in every reachable manager state the `activeDownloads` map never holds
two entries for the same (match id, kind) pair. -/
theorem manager_at_most_one_active (active : List (Nat × ActiveDownload))
    (m : Nat) (fn : String) (now : Nat) :
    (isDownloadingContent active m ContentType.video = true →
      startDownloadBegin active m fn now
        = Sum.inl ⟨false, none, some "Already downloading this video"⟩)
    ∧ (isDownloadingContent active m ContentType.dvw = true →
      startDVWDownloadBegin active m fn now
        = Sum.inl ⟨false, none, some "Already downloading this DVW file"⟩)
    ∧ (ManagerReachable active →
      ∀ e1 ∈ active, ∀ e2 ∈ active,
        e1.2.matchId = e2.2.matchId →
        e1.2.contentType = e2.2.contentType → e1 = e2) := by
  refine ⟨fun h => ?_, fun h => ?_, fun hr e1 h1 e2 h2 hm hc => ?_⟩
  · rw [startDownloadBegin, if_pos h]
  · rw [startDVWDownloadBegin, if_pos h]
  · have inv := managerReachable_inv hr
    apply eq_of_mem_of_keysNodup inv.1 h1 h2
    rw [inv.2 e1 h1, inv.2 e2 h2]
    unfold activeKey
    rw [hm, hc]

theorem manager_at_most_one_active_witness :
    startDownloadBegin mgrBoth 1 "f.mp4" 5
      = Sum.inl ⟨false, none, some "Already downloading this video"⟩
    ∧ startDVWDownloadBegin mgrBoth 1 "f.mp4" 5
      = Sum.inl ⟨false, none, some "Already downloading this DVW file"⟩
    ∧ (1, mgrVid) = (1, mgrVid) := by
  have h := manager_at_most_one_active mgrBoth 1 "f.mp4" 5
  have hstep1 : ManagerReachable [(1, mgrVid)] :=
    @ManagerReachable.startVideo [] 1 "f.mp4" 0 [(1, mgrVid)]
      ManagerReachable.init rfl
  have hreach : ManagerReachable mgrBoth :=
    @ManagerReachable.startDVW [(1, mgrVid)] 1 "f.mp4" 0 mgrBoth hstep1 rfl
  exact ⟨h.1 rfl, h.2.1 rfl,
    h.2.2 hreach (1, mgrVid) (by simp [mgrBoth]) (1, mgrVid)
      (by simp [mgrBoth]) rfl rfl⟩

theorem listRemoveFirst_append_self : ∀ (l : List String) (msg : String),
    msg ∉ l → listRemoveFirst (l ++ [msg]) msg = l
  | [], msg, _ => by simp [listRemoveFirst]
  | x :: xs, msg, h => by
    rw [List.cons_append, listRemoveFirst,
      if_neg (fun hx : x = msg => h (by rw [hx]; exact List.mem_cons_self _ _)),
      listRemoveFirst_append_self xs msg
        (fun hm => h (List.mem_cons_of_mem x hm))]

theorem clearNotificationList_append_self {l : List String} {msg : String}
    (h : msg ∉ l) : clearNotificationList (l ++ [msg]) msg = l := by
  have hc : (l ++ [msg]).contains msg = true := by simp
  rw [clearNotificationList, if_pos hc, listRemoveFirst_append_self l msg h]

/-- C9: `addNotification` appends the message to the notification list
and immediately notifies subscribers with the new list; once the timeout
has elapsed the scheduled callback removes the message (a notification
added with a 50ms timeout on an otherwise idle manager is absent after
60ms); `clearNotification` on a message that is not present leaves the
notification list unchanged and notifies nobody. -/
theorem notification_self_expiry (s : NotifState) (msg : String)
    (timeoutMs now now2 : Nat) :
    (addNotification s msg timeoutMs now).1.notifications
        = s.notifications ++ [msg]
    ∧ (addNotification s msg timeoutMs now).2 = [s.notifications ++ [msg]]
    ∧ (s.timers = [] → msg ∉ s.notifications → now + timeoutMs ≤ now2 →
        runDueTimers (addNotification s msg timeoutMs now).1 now2
          = ⟨s.notifications, []⟩)
    ∧ (msg ∉ s.notifications → clearNotification s msg = (s, [])) := by
  refine ⟨rfl, rfl, fun ht hmem hle => ?_, fun hmem => ?_⟩
  · rw [runDueTimers, addNotification]
    simp only [ht, List.nil_append, List.filter_cons, List.filter_nil,
      decide_eq_true_eq, hle, if_pos, List.foldl_cons, List.foldl_nil]
    rw [clearNotificationList_append_self hmem]
    simp [hle]
  · have hc : s.notifications.contains msg = false := by simpa using hmem
    rw [clearNotification, hc]
    simp

theorem notification_self_expiry_witness :
    runDueTimers (addNotification ⟨[], []⟩ "Downloaded: a.mp4" 50 0).1 60
      = ⟨[], []⟩
    ∧ clearNotification ⟨["other"], []⟩ "Downloaded: a.mp4"
      = (⟨["other"], []⟩, []) := by
  have h := notification_self_expiry ⟨[], []⟩ "Downloaded: a.mp4" 50 0 60
  have h2 := notification_self_expiry ⟨["other"], []⟩ "Downloaded: a.mp4" 50 0 60
  exact ⟨h.2.2.1 rfl (by simp) (by decide),
    h2.2.2.2 (by simp)⟩

/-! ## C8: progress monotonicity -/

theorem fireDue_snd (ts : ThrottleState) (t cur : Nat) :
    (fireDue ts t cur).2 = [] ∨ (fireDue ts t cur).2 = [cur] := by
  rw [fireDue]
  split
  · split
    · rw [throttleFire]
      split
      · exact Or.inr rfl
      · exact Or.inl rfl
    · exact Or.inl rfl
  · exact Or.inl rfl

theorem throttleCall_snd (wait : Nat) (ts : ThrottleState) (now cur : Nat) :
    (throttleCall wait ts now cur).2 = []
    ∨ (throttleCall wait ts now cur).2 = [cur] := by
  rw [throttleCall]
  split
  · exact Or.inr rfl
  · split
    · exact Or.inl rfl
    · exact Or.inl rfl

theorem streamLoop_spec (wait : Nat) : ∀ (chunks : List (Nat × Nat))
    (bytes : Nat) (ts : ThrottleState),
    (streamLoop wait chunks bytes ts).1 = bytes + (chunks.map Prod.snd).sum
    ∧ (∀ d ∈ (streamLoop wait chunks bytes ts).2.2,
        bytes ≤ d ∧ d ≤ (streamLoop wait chunks bytes ts).1)
    ∧ List.Chain' (· ≤ ·) (streamLoop wait chunks bytes ts).2.2 := by
  intro chunks
  induction chunks with
  | nil =>
    intro bytes ts
    exact ⟨by simp [streamLoop], by simp [streamLoop], by simp [streamLoop]⟩
  | cons c rest ih =>
    obtain ⟨t, sz⟩ := c
    intro bytes ts
    obtain ⟨ihSum, ihBound, ihChain⟩ :=
      ih (bytes + sz) (throttleCall wait (fireDue ts t bytes).1 t (bytes + sz)).1
    have hfinal : (streamLoop wait ((t, sz) :: rest) bytes ts).1
        = bytes + (((t, sz) :: rest).map Prod.snd).sum := by
      simp only [streamLoop]
      rw [ihSum]
      simp [Nat.add_assoc]
    have hdeliv : (streamLoop wait ((t, sz) :: rest) bytes ts).2.2
        = (fireDue ts t bytes).2
          ++ (throttleCall wait (fireDue ts t bytes).1 t (bytes + sz)).2
          ++ (streamLoop wait rest (bytes + sz)
              (throttleCall wait (fireDue ts t bytes).1 t (bytes + sz)).1).2.2 := by
      simp only [streamLoop]
    have hsum2 : bytes + sz ≤ (streamLoop wait ((t, sz) :: rest) bytes ts).1 := by
      rw [hfinal]
      simp [Nat.add_assoc]
    refine ⟨hfinal, ?_, ?_⟩
    · intro d hd
      rw [hdeliv] at hd
      rcases List.mem_append.mp hd with hd | hd2
      · rcases List.mem_append.mp hd with hf | hc
        · rcases fireDue_snd ts t bytes with he | he <;> rw [he] at hf
          · cases hf
          · have : d = bytes := List.mem_singleton.mp hf
            subst this
            exact ⟨le_refl _, le_trans (Nat.le_add_right _ _) hsum2⟩
        · rcases throttleCall_snd wait (fireDue ts t bytes).1 t (bytes + sz)
            with he | he <;> rw [he] at hc
          · cases hc
          · have : d = bytes + sz := List.mem_singleton.mp hc
            subst this
            exact ⟨Nat.le_add_right _ _, hsum2⟩
      · have hb := ihBound d hd2
        constructor
        · exact le_trans (Nat.le_add_right _ _) hb.1
        · have : (streamLoop wait ((t, sz) :: rest) bytes ts).1
              = (streamLoop wait rest (bytes + sz)
                (throttleCall wait (fireDue ts t bytes).1 t (bytes + sz)).1).1 := by
            rw [hfinal, ihSum]
            simp [Nat.add_assoc]
          rw [this]
          exact hb.2
    · rw [hdeliv]
      have hnext : ∀ b ∈ (streamLoop wait rest (bytes + sz)
          (throttleCall wait (fireDue ts t bytes).1 t (bytes + sz)).1).2.2.head?,
          bytes + sz ≤ b := by
        intro b hb
        exact (ihBound b (List.mem_of_mem_head? hb)).1
      rcases fireDue_snd ts t bytes with he | he <;> rw [he] <;>
        rcases throttleCall_snd wait (fireDue ts t bytes).1 t (bytes + sz)
          with hc | hc <;> rw [hc]
      · simpa using ihChain
      · simp only [List.nil_append, List.singleton_append]
        exact List.chain'_cons'.mpr ⟨hnext, ihChain⟩
      · simp only [List.append_nil, List.singleton_append, List.nil_append]
        exact List.chain'_cons'.mpr
          ⟨fun b hb => le_trans (Nat.le_add_right _ _) (hnext b hb), ihChain⟩
      · simp only [List.singleton_append, List.nil_append]
        refine List.chain'_cons'.mpr ⟨?_, List.chain'_cons'.mpr ⟨hnext, ihChain⟩⟩
        intro b hb
        simp at hb
        subst hb
        exact Nat.le_add_right _ _

theorem chain_zero_cons {l : List Nat} (h : List.Chain' (· ≤ ·) l) :
    List.Chain' (· ≤ ·) (0 :: l) :=
  List.chain'_cons'.mpr ⟨fun b _ => Nat.zero_le b, h⟩

theorem chain_append_of_all_eq {l suffix : List Nat} {B : Nat}
    (hc : List.Chain' (· ≤ ·) l) (hb : ∀ d ∈ l, d ≤ B)
    (hs : ∀ x ∈ suffix, x = B) (hcs : List.Chain' (· ≤ ·) suffix) :
    List.Chain' (· ≤ ·) (l ++ suffix) := by
  refine hc.append hcs ?_
  intro x hx y hy
  rw [hs y (List.mem_of_mem_head? hy)]
  exact hb x (List.mem_of_mem_getLast? hx)

theorem downloadVideoNet_trace (net : FetchOutcome) (fp : String)
    (fs : FileSys) :
    List.Chain' (· ≤ ·) (downloadVideoNet net fp fs).2.2
    ∧ (∀ r, net = FetchOutcome.resp r → r.ok = true →
        r.bodyReadable = true → r.streamErr = none →
        (downloadVideoNet net fp fs).2.2.getLast?
          = some (r.chunks.map Prod.snd).sum) := by
  cases net with
  | throws msg =>
    refine ⟨by simp [downloadVideoNet], ?_⟩
    intro r hr
    cases hr
  | resp r =>
    obtain ⟨ok, st, stx, clen, rd, chunks, serr⟩ := r
    obtain ⟨hsum, hbound, hchain⟩ := streamLoop_spec 100 chunks 0 throttleInit
    cases ok with
    | false =>
      refine ⟨by simp [downloadVideoNet], ?_⟩
      intro r2 hr2 hok2
      cases hr2
      simp at hok2
    | true =>
      cases rd with
      | false =>
        refine ⟨by simp [downloadVideoNet], ?_⟩
        intro r2 hr2 _ hrd2
        cases hr2
        simp at hrd2
      | true =>
        have hbound2 : ∀ d ∈ (streamLoop 100 chunks 0 throttleInit).2.2,
            d ≤ (streamLoop 100 chunks 0 throttleInit).1 :=
          fun d hd => (hbound d hd).2
        have hsufx : ∀ (c : Bool),
            (∀ x ∈ (if c then [(streamLoop 100 chunks 0 throttleInit).1]
                else ([] : List Nat)),
              x = (streamLoop 100 chunks 0 throttleInit).1) := by
          intro c x hx
          cases c
          · cases hx
          · exact List.mem_singleton.mp hx
        have hsufc : ∀ (c : Bool), List.Chain' (· ≤ ·)
            (if c then [(streamLoop 100 chunks 0 throttleInit).1]
              else ([] : List Nat)) := by
          intro c
          cases c
          · exact List.chain'_nil
          · exact List.chain'_singleton _
        cases serr with
        | some msg =>
          constructor
          · have htrace : (downloadVideoNet
                (FetchOutcome.resp ⟨true, st, stx, clen, true, chunks, some msg⟩)
                fp fs).2.2
              = 0 :: ((streamLoop 100 chunks 0 throttleInit).2.2
                  ++ ([(streamLoop 100 chunks 0 throttleInit).1]
                  ++ (if (streamLoop 100 chunks 0 throttleInit).2.1.hasPending
                        ∧ (streamLoop 100 chunks 0 throttleInit).2.1.timerAt ≠ none
                      then [(streamLoop 100 chunks 0 throttleInit).1] else []))) := by
              simp [downloadVideoNet, List.append_assoc]
            rw [htrace]
            apply chain_zero_cons
            refine chain_append_of_all_eq hchain hbound2 ?_ ?_
            · intro x hx
              rcases List.mem_append.mp hx with hx | hx
              · exact List.mem_singleton.mp hx
              · by_cases hcnd : (streamLoop 100 chunks 0 throttleInit).2.1.hasPending
                    ∧ (streamLoop 100 chunks 0 throttleInit).2.1.timerAt ≠ none
                · rw [if_pos hcnd] at hx
                  exact List.mem_singleton.mp hx
                · rw [if_neg hcnd] at hx
                  cases hx
            · by_cases hcnd : (streamLoop 100 chunks 0 throttleInit).2.1.hasPending
                  ∧ (streamLoop 100 chunks 0 throttleInit).2.1.timerAt ≠ none
              · rw [if_pos hcnd]
                exact List.chain'_pair.mpr (le_refl _)
              · rw [if_neg hcnd]
                exact List.chain'_singleton _
          · intro r2 hr2 _ _ hse2
            cases hr2
            cases hse2
        | none =>
          have htrace : (downloadVideoNet
              (FetchOutcome.resp ⟨true, st, stx, clen, true, chunks, none⟩)
              fp fs).2.2
            = 0 :: ((streamLoop 100 chunks 0 throttleInit).2.2
                ++ ((if (streamLoop 100 chunks 0 throttleInit).2.1.hasPending
                      ∧ (streamLoop 100 chunks 0 throttleInit).2.1.timerAt ≠ none
                    then [(streamLoop 100 chunks 0 throttleInit).1] else [])
                ++ [(streamLoop 100 chunks 0 throttleInit).1])) := by
            simp [downloadVideoNet, List.append_assoc]
          constructor
          · rw [htrace]
            apply chain_zero_cons
            refine chain_append_of_all_eq hchain hbound2 ?_ ?_
            · intro x hx
              rcases List.mem_append.mp hx with hx | hx
              · by_cases hcnd : (streamLoop 100 chunks 0 throttleInit).2.1.hasPending
                    ∧ (streamLoop 100 chunks 0 throttleInit).2.1.timerAt ≠ none
                · rw [if_pos hcnd] at hx
                  exact List.mem_singleton.mp hx
                · rw [if_neg hcnd] at hx
                  cases hx
              · exact List.mem_singleton.mp hx
            · by_cases hcnd : (streamLoop 100 chunks 0 throttleInit).2.1.hasPending
                  ∧ (streamLoop 100 chunks 0 throttleInit).2.1.timerAt ≠ none
              · rw [if_pos hcnd]
                exact List.chain'_pair.mpr (le_refl _)
              · rw [if_neg hcnd]
                exact List.chain'_singleton _
          · intro r2 hr2 _ _ _
            cases hr2
            rw [htrace]
            have hre : 0 :: ((streamLoop 100 chunks 0 throttleInit).2.2
                ++ ((if (streamLoop 100 chunks 0 throttleInit).2.1.hasPending
                      ∧ (streamLoop 100 chunks 0 throttleInit).2.1.timerAt ≠ none
                    then [(streamLoop 100 chunks 0 throttleInit).1] else [])
                ++ [(streamLoop 100 chunks 0 throttleInit).1]))
              = (0 :: ((streamLoop 100 chunks 0 throttleInit).2.2
                  ++ (if (streamLoop 100 chunks 0 throttleInit).2.1.hasPending
                        ∧ (streamLoop 100 chunks 0 throttleInit).2.1.timerAt ≠ none
                      then [(streamLoop 100 chunks 0 throttleInit).1] else [])))
                ++ [(streamLoop 100 chunks 0 throttleInit).1] := by
              simp [List.append_assoc]
            rw [hre, List.getLast?_concat, hsum]
            simp

theorem getLast?_cons_of_getLast? {a v : Nat} {l : List Nat}
    (h : l.getLast? = some v) : (a :: l).getLast? = some v := by
  cases l with
  | nil => cases h
  | cons b t =>
    rw [List.getLast?_cons_cons]
    exact h

/-- C8: for a single streamed video transfer, the sequence of
`bytesDownloaded` values delivered to the progress callback is
non-decreasing (the throttle may coalesce rapid updates — the saved args
alias the one mutated progress object, so a trailing delivery carries
the value at fire time — but never delivers out of order), and when the
stream completes after delivering chunks totalling B bytes the final
delivered value equals B. -/
theorem progress_monotonic (home : String) (cf : Option String)
    (net : FetchOutcome) (ev : MatchEvent) (fs : FileSys) :
    List.Chain' (· ≤ ·) (downloadVideo home cf net ev fs).deliveredBytes
    ∧ (∀ r, net = FetchOutcome.resp r → r.ok = true →
        r.bodyReadable = true → r.streamErr = none →
        (statFs fs (videoFilepath home cf ev) = none
          ∨ statFs fs (videoFilepath home cf ev) = some 0) →
        (downloadVideo home cf net ev fs).deliveredBytes.getLast?
          = some (r.chunks.map Prod.snd).sum) := by
  obtain ⟨hchain, hlast⟩ :=
    downloadVideoNet_trace net (videoFilepath home cf ev) fs
  constructor
  · simp only [downloadVideo]
    cases hstat : statFs fs (videoFilepath home cf ev) with
    | some sz =>
      by_cases hsz : sz > 0
      · simp [hsz]
      · simp only [if_neg hsz]
        exact chain_zero_cons hchain
    | none => exact chain_zero_cons hchain
  · intro r hr hok hrd hse hpre
    have hl := hlast r hr hok hrd hse
    simp only [downloadVideo]
    rcases hpre with hstat | hstat
    · simp only [hstat]
      exact getLast?_cons_of_getLast? hl
    · simp only [hstat]
      rw [if_neg (by omega)]
      exact getLast?_cons_of_getLast? hl

theorem progress_monotonic_witness :
    List.Chain' (· ≤ ·) (downloadVideo "/h" none
      (FetchOutcome.resp ⟨true, 200, "OK", some 400, true,
        [(1000, 100), (1010, 250), (1020, 50)], none⟩) evW
      []).deliveredBytes
    ∧ (downloadVideo "/h" none
      (FetchOutcome.resp ⟨true, 200, "OK", some 400, true,
        [(1000, 100), (1010, 250), (1020, 50)], none⟩) evW
      []).deliveredBytes.getLast? = some 400 := by
  have h := progress_monotonic "/h" none
    (FetchOutcome.resp ⟨true, 200, "OK", some 400, true,
      [(1000, 100), (1010, 250), (1020, 50)], none⟩) evW []
  refine ⟨h.1, ?_⟩
  rw [show (some 400 : Option Nat)
      = some ((([(1000, 100), (1010, 250), (1020, 50)]
        : List (Nat × Nat)).map Prod.snd).sum) from rfl]
  exact h.2 _ rfl rfl rfl rfl (Or.inl rfl)

/-! ## C4: skip before network -/

/-- C4: when the target filepath already exists with non-zero size at
call time, each executor variant returns success with that filepath,
issues no network request (request counter 0) and leaves the filesystem
untouched. -/
theorem skip_before_network (home : String) (cf : Option String)
    (net : FetchOutcome) (dnet : DvwOutcome) (ev : MatchEvent)
    (dvwFilename : String) (fs : FileSys) :
    (∀ sz, statFs fs (videoFilepath home cf ev) = some sz → 0 < sz →
      downloadVideo home cf net ev fs
        = ⟨⟨true, some (videoFilepath home cf ev), none⟩, fs, 0, [0]⟩)
    ∧ (∀ sz, statFs fs (dvwFilepath home cf dvwFilename) = some sz →
        0 < sz →
      downloadDVW home cf dnet dvwFilename fs
        = ⟨⟨true, some (dvwFilepath home cf dvwFilename), none⟩,
            fs, 0, [0]⟩) := by
  constructor
  · intro sz hstat hsz
    simp only [downloadVideo, hstat]
    rw [if_pos hsz]
  · intro sz hstat hsz
    simp only [downloadDVW, hstat]
    rw [if_pos hsz]

theorem skip_before_network_witness :
    downloadVideo "/h" none (FetchOutcome.throws "net down") evW fsBoth
      = ⟨⟨true, some (videoFilepath "/h" none evW), none⟩, fsBoth, 0, [0]⟩
    ∧ downloadDVW "/h" none (DvwOutcome.throws "net down") "m.dvw" fsBoth
      = ⟨⟨true, some (dvwFilepath "/h" none "m.dvw"), none⟩,
          fsBoth, 0, [0]⟩ := by
  have h := skip_before_network "/h" none (FetchOutcome.throws "net down")
    (DvwOutcome.throws "net down") evW "m.dvw" fsBoth
  exact ⟨h.1 5 (by decide) (by decide), h.2 7 (by decide) (by decide)⟩

/-! ## C5: cleanup on failure -/

theorem statFs_fsUnlink (fs : FileSys) (p : String) :
    statFs (fsUnlink fs p) p = none := by
  unfold statFs fsUnlink
  have hnone : (fs.filter (fun e => ¬ e.1 = p)).find?
      (fun e => e.1 = p) = none := by
    rw [List.find?_eq_none]
    intro x hx
    have hpred := List.of_mem_filter hx
    simpa using hpred
  rw [hnone]
  rfl

theorem statFs_fsWrite (fs : FileSys) (p : String) (sz : Nat) :
    statFs (fsWrite fs p sz) p = some sz := by
  unfold statFs fsWrite
  simp

theorem downloadVideoNet_cases (net : FetchOutcome) (fp : String)
    (fs : FileSys) :
    (∀ r msg, net = FetchOutcome.resp r → r.ok = true →
      r.bodyReadable = true → r.streamErr = some msg →
      (downloadVideoNet net fp fs).1 = ⟨false, none, some msg⟩
        ∧ (downloadVideoNet net fp fs).2.1
          = fsUnlink (fsWrite fs fp ((r.chunks.map Prod.snd).sum)) fp)
    ∧ ((downloadVideoNet net fp fs).1.success = false →
        statFs (downloadVideoNet net fp fs).2.1 fp = none)
    ∧ (∀ r, net = FetchOutcome.resp r → r.ok = true →
        r.bodyReadable = true → r.streamErr = none →
        (downloadVideoNet net fp fs).1 = ⟨true, some fp, none⟩
          ∧ (downloadVideoNet net fp fs).2.1
            = fsWrite fs fp ((r.chunks.map Prod.snd).sum)) := by
  cases net with
  | throws msg =>
    refine ⟨?_, ?_, ?_⟩
    · intro r m hr
      cases hr
    · intro _
      simp only [downloadVideoNet]
      exact statFs_fsUnlink fs fp
    · intro r hr
      cases hr
  | resp r =>
    obtain ⟨ok, st, stx, clen, rd, chunks, serr⟩ := r
    obtain ⟨hsum, _, _⟩ := streamLoop_spec 100 chunks 0 throttleInit
    cases ok with
    | false =>
      refine ⟨?_, ?_, ?_⟩
      · intro r2 m hr2 hok2
        cases hr2
        simp at hok2
      · intro _
        simp only [downloadVideoNet]
        simp only [show (false = false) = True by simp, if_true]
        exact statFs_fsUnlink fs fp
      · intro r2 hr2 hok2
        cases hr2
        simp at hok2
    | true =>
      cases rd with
      | false =>
        refine ⟨?_, ?_, ?_⟩
        · intro r2 m hr2 _ hrd2
          cases hr2
          simp at hrd2
        · intro _
          simp only [downloadVideoNet]
          simp only [show ((true : Bool) = false) = False by simp, if_false]
          simp only [show (false = false) = True by simp, if_true]
          exact statFs_fsUnlink fs fp
        · intro r2 hr2 _ hrd2
          cases hr2
          simp at hrd2
      | true =>
        cases serr with
        | some msg =>
          have hout : (downloadVideoNet
              (FetchOutcome.resp ⟨true, st, stx, clen, true, chunks, some msg⟩)
              fp fs).1 = ⟨false, none, some msg⟩
            ∧ (downloadVideoNet
              (FetchOutcome.resp ⟨true, st, stx, clen, true, chunks, some msg⟩)
              fp fs).2.1
              = fsUnlink (fsWrite fs fp (chunks.map Prod.snd).sum) fp := by
            constructor
            · simp [downloadVideoNet]
            · simp only [downloadVideoNet]
              simp only [show ((true : Bool) = false) = False by simp,
                if_false]
              rw [hsum]
              simp
          refine ⟨?_, ?_, ?_⟩
          · intro r2 m hr2 _ _ hse2
            cases hr2
            cases hse2
            exact hout
          · intro _
            rw [hout.2]
            exact statFs_fsUnlink _ fp
          · intro r2 hr2 _ _ hse2
            cases hr2
            cases hse2
        | none =>
          have hout : (downloadVideoNet
              (FetchOutcome.resp ⟨true, st, stx, clen, true, chunks, none⟩)
              fp fs).1 = ⟨true, some fp, none⟩
            ∧ (downloadVideoNet
              (FetchOutcome.resp ⟨true, st, stx, clen, true, chunks, none⟩)
              fp fs).2.1 = fsWrite fs fp (chunks.map Prod.snd).sum := by
            constructor
            · simp [downloadVideoNet]
            · simp only [downloadVideoNet]
              simp only [show ((true : Bool) = false) = False by simp,
                if_false]
              rw [hsum]
              simp
          refine ⟨?_, ?_, ?_⟩
          · intro r2 m hr2 _ _ hse2
            cases hr2
            cases hse2
          · intro hfail
            rw [hout.1] at hfail
            cases hfail
          · intro r2 hr2 _ _ _
            cases hr2
            exact hout

/-- C5 (amended): a video transfer that fails mid-download (after
possibly writing partial bytes) best-effort deletes the
partially-written target file, returns a failure result carrying the
error message rather than throwing, and the target filepath does not
exist once the failure result is returned — this holds on every failure
path.  On the success path the target file holds exactly the bytes the
stream delivered; it is zero-byte only when the stream itself delivered
zero bytes, the code performing no post-download size validation (this
corrects the original claim's unconditional 'no zero-byte or truncated
file on the success path'). -/
theorem cleanup_on_failure (home : String) (cf : Option String)
    (net : FetchOutcome) (ev : MatchEvent) (fs : FileSys) :
    (∀ r msg, net = FetchOutcome.resp r → r.ok = true →
      r.bodyReadable = true → r.streamErr = some msg →
      (statFs fs (videoFilepath home cf ev) = none
        ∨ statFs fs (videoFilepath home cf ev) = some 0) →
      (downloadVideo home cf net ev fs).result = ⟨false, none, some msg⟩
        ∧ statFs (downloadVideo home cf net ev fs).fs
            (videoFilepath home cf ev) = none)
    ∧ ((downloadVideo home cf net ev fs).result.success = false →
        statFs (downloadVideo home cf net ev fs).fs
          (videoFilepath home cf ev) = none)
    ∧ (∀ r, net = FetchOutcome.resp r → r.ok = true →
        r.bodyReadable = true → r.streamErr = none →
        (statFs fs (videoFilepath home cf ev) = none
          ∨ statFs fs (videoFilepath home cf ev) = some 0) →
        (downloadVideo home cf net ev fs).result.success = true
          ∧ statFs (downloadVideo home cf net ev fs).fs
              (videoFilepath home cf ev)
            = some (r.chunks.map Prod.snd).sum) := by
  refine ⟨?_, ?_, ?_⟩
  · intro r msg hr hok hrd hse hpre
    have h1 := (downloadVideoNet_cases net (videoFilepath home cf ev) fs).1
      r msg hr hok hrd hse
    rcases hpre with hstat | hstat
    · simp only [downloadVideo, hstat]
      exact ⟨h1.1, by rw [h1.2]; exact statFs_fsUnlink _ _⟩
    · simp only [downloadVideo, hstat]
      rw [if_neg (by omega)]
      exact ⟨h1.1, by rw [h1.2]; exact statFs_fsUnlink _ _⟩
  · intro hfail
    cases hstat : statFs fs (videoFilepath home cf ev) with
    | some sz =>
      by_cases hsz : sz > 0
      · simp only [downloadVideo, hstat, if_pos hsz] at hfail
        cases hfail
      · simp only [downloadVideo, hstat, if_neg hsz] at hfail ⊢
        exact (downloadVideoNet_cases net
          (videoFilepath home cf ev) fs).2.1 hfail
    | none =>
      simp only [downloadVideo, hstat] at hfail ⊢
      exact (downloadVideoNet_cases net
        (videoFilepath home cf ev) fs).2.1 hfail
  · intro r hr hok hrd hse hpre
    have h3 := (downloadVideoNet_cases net (videoFilepath home cf ev) fs).2.2
      r hr hok hrd hse
    rcases hpre with hstat | hstat
    · simp only [downloadVideo, hstat]
      exact ⟨by rw [h3.1], by rw [h3.2]; exact statFs_fsWrite _ _ _⟩
    · simp only [downloadVideo, hstat]
      rw [if_neg (by omega)]
      exact ⟨by rw [h3.1], by rw [h3.2]; exact statFs_fsWrite _ _ _⟩

/-- C5 counterexample: an OK response whose stream delivers zero chunks
completes successfully and leaves a zero-byte file at the target path,
so the success path can leave a zero-byte file behind. -/
theorem success_leaves_zero_byte_file :
    (downloadVideo "/h" none
        (FetchOutcome.resp ⟨true, 200, "OK", some 0, true, [], none⟩)
        evW []).result.success = true
    ∧ statFs (downloadVideo "/h" none
        (FetchOutcome.resp ⟨true, 200, "OK", some 0, true, [], none⟩)
        evW []).fs (videoFilepath "/h" none evW) = some 0 := by
  constructor
  · decide
  · decide

theorem cleanup_on_failure_witness :
    (downloadVideo "/h" none
        (FetchOutcome.resp
          ⟨true, 200, "OK", some 10, true, [(1000, 10)], some "boom"⟩)
        evW []).result = ⟨false, none, some "boom"⟩
    ∧ statFs (downloadVideo "/h" none
        (FetchOutcome.resp
          ⟨true, 200, "OK", some 10, true, [(1000, 10)], some "boom"⟩)
        evW []).fs (videoFilepath "/h" none evW) = none := by
  have h := cleanup_on_failure "/h" none
    (FetchOutcome.resp
      ⟨true, 200, "OK", some 10, true, [(1000, 10)], some "boom"⟩) evW []
  exact h.1 _ "boom" rfl rfl rfl rfl (Or.inl rfl)

/-! ## C6: batch summary arithmetic -/

theorem length_filter_partition (l : List BulkDownloadResult) :
    (l.filter (fun r => r.success ∧ ¬ r.skipped)).length
      + (l.filter (fun r => r.skipped)).length
      + (l.filter (fun r => ¬ r.success ∧ ¬ r.skipped)).length
      = l.length := by
  induction l with
  | nil => rfl
  | cons r rest ih =>
    by_cases hs : r.skipped = true <;> by_cases hx : r.success = true <;>
      simp [List.filter_cons, hs, hx] at ih ⊢ <;> omega

theorem bulkItemLoop_length (env : BulkEnv) (home : String)
    (options : BulkDownloadOptions) (ev : MatchEvent)
    (av : UnifiedContentAvailability) :
    ∀ (types : List BulkContentType) (st : BulkState),
      (bulkItemLoop env home options ev av types st).1.length
        = types.length := by
  intro types
  induction types with
  | nil => intro st; rfl
  | cons t rest ih =>
    intro st
    simp [bulkItemLoop, ih]

theorem bulkLoop_length (env : BulkEnv) (home : String)
    (options : BulkDownloadOptions) :
    ∀ (items : List BulkDownloadItem) (st : BulkState),
      (bulkLoop env home options items st).1.length
        = countTotalDownloads items := by
  intro items
  induction items with
  | nil => intro st; rfl
  | cons item rest ih =>
    intro st
    simp [bulkLoop, countTotalDownloads, List.length_append,
      bulkItemLoop_length, ih]

/-- C6: the bulk summary satisfies
`downloaded + skipped + failed = total`, the total equals the number of
(item, kind) pairs, there is exactly one result per pair, and every
result falls into exactly one of the three categories (skipped when
marked skipped, else downloaded when successful, else failed). -/
theorem bulk_summary_arithmetic (env : BulkEnv) (home : String)
    (options : BulkDownloadOptions) (items : List BulkDownloadItem)
    (st : BulkState) :
    (bulkDownload env home options items st).1.total
        = countTotalDownloads items
    ∧ (bulkDownload env home options items st).1.results.length
        = (bulkDownload env home options items st).1.total
    ∧ (bulkDownload env home options items st).1.downloaded
        + (bulkDownload env home options items st).1.skipped
        + (bulkDownload env home options items st).1.failed
      = (bulkDownload env home options items st).1.total
    ∧ ∀ r ∈ (bulkDownload env home options items st).1.results,
        ((if r.skipped then 1 else 0)
          + (if r.success ∧ ¬ r.skipped then 1 else 0)
          + (if ¬ r.success ∧ ¬ r.skipped then 1 else 0) : Nat) = 1 := by
  refine ⟨rfl, ?_, ?_, ?_⟩
  · simp only [bulkDownload]
    exact bulkLoop_length env home options items st
  · simp only [bulkDownload]
    rw [length_filter_partition]
    exact bulkLoop_length env home options items st
  · intro r _
    by_cases hs : r.skipped = true <;> by_cases hx : r.success = true <;>
      simp [hs, hx]

theorem bulk_summary_arithmetic_witness :
    (bulkDownload envW "/h" ⟨none, false⟩ [itemW] ⟨[], []⟩).1.downloaded
      + (bulkDownload envW "/h" ⟨none, false⟩ [itemW] ⟨[], []⟩).1.skipped
      + (bulkDownload envW "/h" ⟨none, false⟩ [itemW] ⟨[], []⟩).1.failed
      = (bulkDownload envW "/h" ⟨none, false⟩ [itemW] ⟨[], []⟩).1.total
    ∧ ((if (⟨1, BulkContentType.video, false, none, some "down", false,
          none⟩ : BulkDownloadResult).skipped then 1 else 0)
        + (if (⟨1, BulkContentType.video, false, none, some "down", false,
            none⟩ : BulkDownloadResult).success
            ∧ ¬ (⟨1, BulkContentType.video, false, none, some "down",
              false, none⟩ : BulkDownloadResult).skipped then 1 else 0)
        + (if ¬ (⟨1, BulkContentType.video, false, none, some "down",
            false, none⟩ : BulkDownloadResult).success
            ∧ ¬ (⟨1, BulkContentType.video, false, none, some "down",
              false, none⟩ : BulkDownloadResult).skipped then 1 else 0)
        : Nat) = 1 := by
  have h := bulk_summary_arithmetic envW "/h" ⟨none, false⟩ [itemW] ⟨[], []⟩
  exact ⟨h.2.2.1, h.2.2.2 _ (by decide)⟩

/-! ## C7: the bulk skip decision -/

theorem downloadVideoContentNet_not_skipped (env : BulkEnv)
    (st : BulkState) (ev : MatchEvent) (vinfo : VideoInfo)
    (fp fn : String) :
    (downloadVideoContentNet env st ev vinfo fp fn).1.skipped = false := by
  unfold downloadVideoContentNet
  cases env.videoNet vinfo.url with
  | throws msg => rfl
  | resp r =>
    by_cases hok : r.ok = false
    · simp [hok]
    · by_cases hrd : r.bodyReadable = false
      · simp [hok, hrd]
      · cases hse : r.streamErr <;> simp [hok, hrd, hse]

theorem downloadDVWContentNet_not_skipped (env : BulkEnv) (st : BulkState)
    (ev : MatchEvent) (fp fn : String) :
    (downloadDVWContentNet env st ev fp fn).1.skipped = false := by
  unfold downloadDVWContentNet
  cases env.dvwNet ev.id with
  | throws msg => rfl
  | content s => cases s <;> rfl

theorem downloadVideoContentNet_ledger_indep (env : BulkEnv)
    (fs : FileSys) (l1 l2 : List DownloadRecord) (ev : MatchEvent)
    (vinfo : VideoInfo) (fp fn : String) :
    (downloadVideoContentNet env ⟨fs, l1⟩ ev vinfo fp fn).1
      = (downloadVideoContentNet env ⟨fs, l2⟩ ev vinfo fp fn).1
    ∧ (downloadVideoContentNet env ⟨fs, l1⟩ ev vinfo fp fn).2.1.fs
      = (downloadVideoContentNet env ⟨fs, l2⟩ ev vinfo fp fn).2.1.fs
    ∧ (downloadVideoContentNet env ⟨fs, l1⟩ ev vinfo fp fn).2.2
      = (downloadVideoContentNet env ⟨fs, l2⟩ ev vinfo fp fn).2.2 := by
  unfold downloadVideoContentNet
  cases env.videoNet vinfo.url with
  | throws msg => exact ⟨rfl, rfl, rfl⟩
  | resp r =>
    by_cases hok : r.ok = false
    · simp [hok]
    · by_cases hrd : r.bodyReadable = false
      · simp [hok, hrd]
      · cases hse : r.streamErr <;> simp [hok, hrd, hse]

theorem downloadDVWContentNet_ledger_indep (env : BulkEnv) (fs : FileSys)
    (l1 l2 : List DownloadRecord) (ev : MatchEvent) (fp fn : String) :
    (downloadDVWContentNet env ⟨fs, l1⟩ ev fp fn).1
      = (downloadDVWContentNet env ⟨fs, l2⟩ ev fp fn).1
    ∧ (downloadDVWContentNet env ⟨fs, l1⟩ ev fp fn).2.1.fs
      = (downloadDVWContentNet env ⟨fs, l2⟩ ev fp fn).2.1.fs
    ∧ (downloadDVWContentNet env ⟨fs, l1⟩ ev fp fn).2.2
      = (downloadDVWContentNet env ⟨fs, l2⟩ ev fp fn).2.2 := by
  unfold downloadDVWContentNet
  cases env.dvwNet ev.id with
  | throws msg => exact ⟨rfl, rfl, rfl⟩
  | content s => cases s <;> exact ⟨rfl, rfl, rfl⟩

/-- C7 (amended): a (item, kind) pair processed by the bulk path is
skipped with reason 'Already downloaded' exactly when the computed
target filepath already exists with non-zero size; the persisted Ledger
and the Coordinator's in-session completion state are not consulted —
the result, filesystem effect and request count are identical under any
two ledger states. -/
theorem bulk_precheck_target_file_only (env : BulkEnv) (fs : FileSys)
    (l1 l2 : List DownloadRecord) (ev : MatchEvent) (vinfo : VideoInfo)
    (dinfo : DVWInfo) (targetDir : String) :
    (∀ sz, statFs fs
        (targetDir ++ "/" ++ sanitizeFilename (generateVideoFilename ev))
          = some sz → 0 < sz →
      downloadVideoContent env ⟨fs, l1⟩ ev vinfo targetDir
        = (⟨ev.id, BulkContentType.video, true,
            some (targetDir ++ "/"
              ++ sanitizeFilename (generateVideoFilename ev)),
            none, true, some "Already downloaded"⟩, ⟨fs, l1⟩, 0))
    ∧ ((downloadVideoContent env ⟨fs, l1⟩ ev vinfo targetDir).1.skipped
          = true →
        ∃ sz, statFs fs (targetDir ++ "/"
            ++ sanitizeFilename (generateVideoFilename ev)) = some sz
          ∧ 0 < sz)
    ∧ ((downloadVideoContent env ⟨fs, l1⟩ ev vinfo targetDir).1
        = (downloadVideoContent env ⟨fs, l2⟩ ev vinfo targetDir).1
      ∧ (downloadVideoContent env ⟨fs, l1⟩ ev vinfo targetDir).2.2
        = (downloadVideoContent env ⟨fs, l2⟩ ev vinfo targetDir).2.2)
    ∧ (∀ sz, statFs fs
        (targetDir ++ "/" ++ sanitizeFilename dinfo.filename)
          = some sz → 0 < sz →
      downloadDVWContent env ⟨fs, l1⟩ ev dinfo targetDir
        = (⟨ev.id, BulkContentType.dvw, true,
            some (targetDir ++ "/" ++ sanitizeFilename dinfo.filename),
            none, true, some "Already downloaded"⟩, ⟨fs, l1⟩, 0))
    ∧ ((downloadDVWContent env ⟨fs, l1⟩ ev dinfo targetDir).1.skipped
          = true →
        ∃ sz, statFs fs (targetDir ++ "/"
            ++ sanitizeFilename dinfo.filename) = some sz ∧ 0 < sz)
    ∧ ((downloadDVWContent env ⟨fs, l1⟩ ev dinfo targetDir).1
        = (downloadDVWContent env ⟨fs, l2⟩ ev dinfo targetDir).1
      ∧ (downloadDVWContent env ⟨fs, l1⟩ ev dinfo targetDir).2.2
        = (downloadDVWContent env ⟨fs, l2⟩ ev dinfo targetDir).2.2) := by
  refine ⟨?_, ?_, ?_, ?_, ?_, ?_⟩
  · intro sz hstat hsz
    simp only [downloadVideoContent, hstat]
    rw [if_pos hsz]
  · intro hskip
    cases hstat : statFs fs
        (targetDir ++ "/" ++ sanitizeFilename (generateVideoFilename ev))
        with
    | some sz =>
      by_cases hsz : sz > 0
      · exact ⟨sz, rfl, hsz⟩
      · simp only [downloadVideoContent, hstat, if_neg hsz] at hskip
        rw [downloadVideoContentNet_not_skipped] at hskip
        cases hskip
    | none =>
      simp only [downloadVideoContent, hstat] at hskip
      rw [downloadVideoContentNet_not_skipped] at hskip
      cases hskip
  · cases hstat : statFs fs
        (targetDir ++ "/" ++ sanitizeFilename (generateVideoFilename ev))
        with
    | some sz =>
      by_cases hsz : sz > 0
      · simp only [downloadVideoContent, hstat, if_pos hsz]
        exact ⟨trivial, trivial⟩
      · simp only [downloadVideoContent, hstat, if_neg hsz]
        exact ⟨(downloadVideoContentNet_ledger_indep env fs l1 l2
            ev vinfo _ _).1,
          (downloadVideoContentNet_ledger_indep env fs l1 l2
            ev vinfo _ _).2.2⟩
    | none =>
      simp only [downloadVideoContent, hstat]
      exact ⟨(downloadVideoContentNet_ledger_indep env fs l1 l2
          ev vinfo _ _).1,
        (downloadVideoContentNet_ledger_indep env fs l1 l2
          ev vinfo _ _).2.2⟩
  · intro sz hstat hsz
    simp only [downloadDVWContent, hstat]
    rw [if_pos hsz]
  · intro hskip
    cases hstat : statFs fs
        (targetDir ++ "/" ++ sanitizeFilename dinfo.filename) with
    | some sz =>
      by_cases hsz : sz > 0
      · exact ⟨sz, rfl, hsz⟩
      · simp only [downloadDVWContent, hstat, if_neg hsz] at hskip
        rw [downloadDVWContentNet_not_skipped] at hskip
        cases hskip
    | none =>
      simp only [downloadDVWContent, hstat] at hskip
      rw [downloadDVWContentNet_not_skipped] at hskip
      cases hskip
  · cases hstat : statFs fs
        (targetDir ++ "/" ++ sanitizeFilename dinfo.filename) with
    | some sz =>
      by_cases hsz : sz > 0
      · simp only [downloadDVWContent, hstat, if_pos hsz]
        exact ⟨trivial, trivial⟩
      · simp only [downloadDVWContent, hstat, if_neg hsz]
        exact ⟨(downloadDVWContentNet_ledger_indep env fs l1 l2
            ev _ _).1,
          (downloadDVWContentNet_ledger_indep env fs l1 l2 ev _ _).2.2⟩
    | none =>
      simp only [downloadDVWContent, hstat]
      exact ⟨(downloadDVWContentNet_ledger_indep env fs l1 l2 ev _ _).1,
        (downloadDVWContentNet_ledger_indep env fs l1 l2 ev _ _).2.2⟩

/-- C7 counterexample: the ledger holds a valid record for
(match 1, video) — `getDownloadRecord` returns it, its file exists with
size 9 — yet the bulk path, whose target filepath is elsewhere, does not
skip the pair: it attempts a download (one network request, result not
skipped).  The bulk skip decision never consults the ledger. -/
theorem bulk_ignores_valid_ledger_record :
    (getDownloadRecord [("q", 9)] [c7rec] 1 (some ContentType.video)).1
      = some c7rec
    ∧ (downloadVideoContent envW ⟨[("q", 9)], [c7rec]⟩ evW
        ⟨true, "u", "f", 1⟩ "/d").1.skipped = false
    ∧ (downloadVideoContent envW ⟨[("q", 9)], [c7rec]⟩ evW
        ⟨true, "u", "f", 1⟩ "/d").2.2 = 1 := by
  refine ⟨by decide, by decide, by decide⟩

theorem bulk_precheck_target_file_only_witness :
    downloadVideoContent envW ⟨fsW7, []⟩ evW ⟨true, "u", "f", 1⟩ "/d"
      = (⟨1, BulkContentType.video, true,
          some ("/d/" ++ sanitizeFilename (generateVideoFilename evW)),
          none, true, some "Already downloaded"⟩, ⟨fsW7, []⟩, 0)
    ∧ downloadDVWContent envW ⟨fsW7, []⟩ evW ⟨true, 1, "m.dvw"⟩ "/d"
      = (⟨1, BulkContentType.dvw, true,
          some ("/d/" ++ sanitizeFilename "m.dvw"),
          none, true, some "Already downloaded"⟩, ⟨fsW7, []⟩, 0) := by
  have h := bulk_precheck_target_file_only envW fsW7 [] [] evW
    ⟨true, "u", "f", 1⟩ ⟨true, 1, "m.dvw"⟩ "/d"
  exact ⟨h.1 5 (by decide) (by decide),
    h.2.2.2.1 7 (by decide) (by decide)⟩
